import Mathlib

/-!
Verification of the ingestion-and-analysis cache pipeline of the
dailyYoutubeSummary repository, as a shallow embedding in Lean 4.

Conventions of the embedding:
* Python floats (sentiment/importance scores) are modelled as rationals (ℚ).
* Timestamps (`datetime.utcnow()`) are modelled as abstract ticks (`Nat`),
  supplied by the caller as a `now` argument.
* The relational store is modelled as in-memory lists of rows; SQLAlchemy
  `query(...).filter(col == x).first()` becomes `List.find?`, `db.add`
  becomes appending a row, updates become `List.map` over the matching row.
* The MD5-based content hash of `_generate_cache_key` is kept abstract: the
  development is parametrised over `md5hex : String → String` (the hex digest
  of a string); no claim depends on properties of the digest.
* External calls (YouTube API, the transcript fetcher, the OpenAI chat
  completion) are modelled by explicit outcome values passed in by the
  caller; a Python exception is an `Except.error` / dedicated outcome
  constructor, and a `try/except` block is an explicit `match` on it.
* JSON dictionaries produced by the LLM are modelled by records holding
  exactly the fields the source code reads, with `Option` for keys the code
  reads through `.get(key, default)` where the default is a non-trivial
  value; keys read with default `[]` are modelled as plain lists (the code
  cannot distinguish an absent key from `[]` there).
-/

namespace DYS

/-! ## Data model: rows of the relational store (src/app/models/database.py) -/

/-- The `market_analysis` JSON sub-object requested from the LLM by
`analyze_content_with_ai` (src/smart_subscription_reporter_v2.py); the code
stores it verbatim (`json.dumps`) and reads back only `current_situation`
(with default). An absent object (`.get('market_analysis', {})`) is the
record with all fields empty. -/
structure MarketAnalysisJson where
  current_situation : Option String
  future_outlook : Option String
  risk_factors : List String
  opportunities : List String
deriving Repr, DecidableEq

def MarketAnalysisJson.empty : MarketAnalysisJson :=
  { current_situation := none, future_outlook := none
    risk_factors := [], opportunities := [] }

/-- The `investment_implications` JSON sub-object; stored and reloaded
verbatim, never field-read outside of report rendering. -/
structure InvestmentImplicationsJson where
  short_term : Option String
  long_term : Option String
  sectors_to_watch : List String
  specific_recommendations : List String
deriving Repr, DecidableEq

def InvestmentImplicationsJson.empty : InvestmentImplicationsJson :=
  { short_term := none, long_term := none
    sectors_to_watch := [], specific_recommendations := [] }

/-- The detailed-analysis JSON object: the shape `analyze_content_with_ai`
requests from the LLM and stores in the `video_analyses` table, restricted
to the keys the source code reads. -/
structure DetailedJson where
  executive_summary : Option String
  detailed_insights : List String
  market_analysis : MarketAnalysisJson
  investment_implications : InvestmentImplicationsJson
  key_data_points : List String
  expert_opinions : List String
  historical_context : Option String
  actionable_steps : List String
  sentiment : Option String
  importance : Option ℚ
  confidence_level : Option ℚ
  topics : List String
  related_companies : List String
  economic_indicators : List String
  time_sensitive_info : Option String
deriving Repr, DecidableEq

def DetailedJson.empty : DetailedJson :=
  { executive_summary := none, detailed_insights := []
    market_analysis := MarketAnalysisJson.empty
    investment_implications := InvestmentImplicationsJson.empty
    key_data_points := [], expert_opinions := [], historical_context := none
    actionable_steps := [], sentiment := none, importance := none
    confidence_level := none, topics := [], related_companies := []
    economic_indicators := [], time_sensitive_info := none }

/-- The "legacy" analysis-result dictionary returned by
`analyze_content_with_ai` and consumed by `save_analysis_result` /
`_convert_db_to_analysis_format`. `market_impact` and `action_items` are
absent from the AI-disabled result, hence `Option`; `detailed_analysis` is
absent from every fallback result. -/
structure AnalysisResult where
  summary : String
  key_insights : List String
  sentiment : String
  importance : ℚ
  topics : List String
  market_impact : Option String
  action_items : Option (List String)
  detailed_analysis : Option DetailedJson
deriving Repr, DecidableEq

/-- One row of the `transcripts` table. `transcript_length` is set by
`_save_transcript` (video_cache_service) but left unset (`none`) by
`collect_video_transcripts` (data_collector). -/
structure TranscriptRow where
  video_id : String
  transcript_text : String
  transcript_length : Option Nat
  is_auto_generated : Bool
  language : String
  updated_at : Nat
deriving Repr, DecidableEq

/-- One row of the `video_analyses` table (the rich single-record-per-video
analysis). JSON text columns are modelled by the values they deserialize
to; nullable text columns read back through `x or ""` are modelled as plain
`String`. -/
structure VideoAnalysisRow where
  video_id : String
  executive_summary : String
  sentiment : String
  importance_score : ℚ
  confidence_level : ℚ
  detailed_insights : List String
  market_analysis : MarketAnalysisJson
  investment_implications : InvestmentImplicationsJson
  key_data_points : List String
  expert_opinions : List String
  historical_context : String
  actionable_steps : List String
  topics : List String
  related_companies : List String
  economic_indicators : List String
  time_sensitive_info : String
  ai_model_used : String
  analysis_version : String
  updated_at : Nat
deriving Repr, DecidableEq

/-- One row of the `analysis_cache` table. Column defaults
(`is_valid=True`, `access_count=1`) are from src/app/models/database.py. -/
structure AnalysisCacheRow where
  video_id : String
  cache_key : String
  is_valid : Bool
  ai_model_version : String
  last_accessed : Nat
  access_count : Nat
  updated_at : Nat
deriving Repr, DecidableEq

/-- The slice of the store touched by VideoCacheService
(src/app/services/video_cache_service.py). The `videos` table is not
modelled here: no claim about this service reads it. -/
structure CacheDb where
  transcripts : List TranscriptRow
  video_analyses : List VideoAnalysisRow
  analysis_cache : List AnalysisCacheRow
deriving Repr, DecidableEq

def CacheDb.empty : CacheDb :=
  { transcripts := [], video_analyses := [], analysis_cache := [] }

/-! ## VideoCacheService (src/app/services/video_cache_service.py) -/

/-- `_generate_cache_key`: video id plus the first 16 hex chars of the MD5
of the transcript text. The digest function is the parameter `md5hex`. -/
def generate_cache_key (md5hex : String → String) (video_id transcript_text : String) : String :=
  video_id ++ "_" ++ (md5hex transcript_text).take 16

def find_transcript (db : CacheDb) (vid : String) : Option TranscriptRow :=
  db.transcripts.find? (fun t => t.video_id == vid)

def find_video_analysis (db : CacheDb) (vid : String) : Option VideoAnalysisRow :=
  db.video_analyses.find? (fun a => a.video_id == vid)

def find_analysis_cache (db : CacheDb) (vid : String) : Option AnalysisCacheRow :=
  db.analysis_cache.find? (fun c => c.video_id == vid)

/-- `_save_transcript`: upsert of the transcript row for a video. -/
def save_transcript (db : CacheDb) (video_id transcript_text : String) (now : Nat) : CacheDb :=
  if (find_transcript db video_id).isSome then
    { db with transcripts := db.transcripts.map (fun t =>
        if t.video_id == video_id then
          { t with transcript_text := transcript_text
                   transcript_length := some transcript_text.length
                   updated_at := now }
        else t) }
  else
    { db with transcripts := db.transcripts ++
        [{ video_id := video_id, transcript_text := transcript_text
           transcript_length := some transcript_text.length
           is_auto_generated := true, language := "ko", updated_at := now }] }

/-- `save_video_data`, restricted to the transcript side effect (the
`videos`-table upsert is not modelled; no claim reads that table). -/
def save_video_data (db : CacheDb) (video_id : String) (transcript_text : Option String) (now : Nat) : CacheDb :=
  match transcript_text with
  | some t => save_transcript db video_id t now
  | none => db

/-- The new `VideoAnalysis` row built by `save_analysis_result` (lines
107-132); `d` is `analysis_result.get('detailed_analysis', {})`. -/
def new_video_analysis_row (video_id : String) (res : AnalysisResult) (ai_model : String) (now : Nat) : VideoAnalysisRow :=
  let d := res.detailed_analysis.getD DetailedJson.empty
  { video_id := video_id
    executive_summary := d.executive_summary.getD res.summary
    sentiment := res.sentiment
    importance_score := res.importance
    confidence_level := d.confidence_level.getD (4/5)
    detailed_insights := d.detailed_insights
    market_analysis := d.market_analysis
    investment_implications := d.investment_implications
    key_data_points := d.key_data_points
    expert_opinions := d.expert_opinions
    historical_context := d.historical_context.getD ""
    actionable_steps := d.actionable_steps
    topics := res.topics
    related_companies := d.related_companies
    economic_indicators := d.economic_indicators
    time_sensitive_info := d.time_sensitive_info.getD ""
    ai_model_used := ai_model
    analysis_version := "1.0"
    updated_at := now }

/-- `_update_analysis`: in-place update of an existing row (leaves
`analysis_version` untouched). -/
def update_video_analysis_row (row : VideoAnalysisRow) (res : AnalysisResult) (ai_model : String) (now : Nat) : VideoAnalysisRow :=
  let d := res.detailed_analysis.getD DetailedJson.empty
  { row with
    executive_summary := d.executive_summary.getD res.summary
    sentiment := res.sentiment
    importance_score := res.importance
    confidence_level := d.confidence_level.getD (4/5)
    detailed_insights := d.detailed_insights
    market_analysis := d.market_analysis
    investment_implications := d.investment_implications
    key_data_points := d.key_data_points
    expert_opinions := d.expert_opinions
    historical_context := d.historical_context.getD ""
    actionable_steps := d.actionable_steps
    topics := res.topics
    related_companies := d.related_companies
    economic_indicators := d.economic_indicators
    time_sensitive_info := d.time_sensitive_info.getD ""
    ai_model_used := ai_model
    updated_at := now }

/-- `_update_cache_info`: returns unchanged when the video has no stored
transcript; otherwise upserts the cache row with the content-derived key.
A fresh row gets the column defaults `is_valid=True`, `access_count=1`. -/
def update_cache_info (md5hex : String → String) (db : CacheDb) (video_id ai_model : String) (now : Nat) : CacheDb :=
  match find_transcript db video_id with
  | none => db
  | some tr =>
    let ckey := generate_cache_key md5hex video_id tr.transcript_text
    if (find_analysis_cache db video_id).isSome then
      { db with analysis_cache := db.analysis_cache.map (fun c =>
          if c.video_id == video_id then
            { c with cache_key := ckey, ai_model_version := ai_model
                     last_accessed := now, access_count := c.access_count + 1
                     updated_at := now }
          else c) }
    else
      { db with analysis_cache := db.analysis_cache ++
          [{ video_id := video_id, cache_key := ckey, is_valid := true
             ai_model_version := ai_model, last_accessed := now
             access_count := 1, updated_at := now }] }

/-- The analysis-row upsert performed by `save_analysis_result`: update
the existing row in place, or append a fresh one. -/
def upsert_video_analysis (db : CacheDb) (video_id : String) (res : AnalysisResult) (ai_model : String) (now : Nat) : CacheDb :=
  if (find_video_analysis db video_id).isSome then
    { db with video_analyses := db.video_analyses.map (fun a =>
        if a.video_id == video_id then update_video_analysis_row a res ai_model now else a) }
  else
    { db with video_analyses := db.video_analyses ++ [new_video_analysis_row video_id res ai_model now] }

/-- `save_analysis_result`: upsert the rich analysis row, then update the
cache index. -/
def save_analysis_result (md5hex : String → String) (db : CacheDb) (video_id : String) (res : AnalysisResult) (ai_model : String) (now : Nat) : CacheDb :=
  update_cache_info md5hex (upsert_video_analysis db video_id res ai_model now) video_id ai_model now

/-- `_convert_db_to_analysis_format`: rebuild the legacy dictionary from a
stored row (the stored JSON columns always round-trip in the model, so the
internal exception branch of the source is unreachable here). -/
def convert_db_to_analysis_format (row : VideoAnalysisRow) : AnalysisResult :=
  let detailed : DetailedJson :=
    { executive_summary := some row.executive_summary
      detailed_insights := row.detailed_insights
      market_analysis := row.market_analysis
      investment_implications := row.investment_implications
      key_data_points := row.key_data_points
      expert_opinions := row.expert_opinions
      historical_context := some row.historical_context
      actionable_steps := row.actionable_steps
      sentiment := some row.sentiment
      importance := some row.importance_score
      confidence_level := some row.confidence_level
      topics := row.topics
      related_companies := row.related_companies
      economic_indicators := row.economic_indicators
      time_sensitive_info := some row.time_sensitive_info }
  { summary := row.executive_summary
    key_insights := row.detailed_insights.take 4
    sentiment := row.sentiment
    importance := row.importance_score
    topics := row.topics
    market_impact := some (row.market_analysis.current_situation.getD "분석 중")
    action_items := some (row.actionable_steps.take 2)
    detailed_analysis := some detailed }

/-- `get_cached_analysis`: looks the analysis up **by video id only** (the
stored `cache_key` is not consulted); on a hit it bumps the cache row's
access statistics (`updated_at` is touched by the column's `onupdate`). -/
def get_cached_analysis (db : CacheDb) (video_id : String) (now : Nat) : Option AnalysisResult × CacheDb :=
  match find_video_analysis db video_id with
  | none => (none, db)
  | some row =>
    let db' :=
      if (find_analysis_cache db video_id).isSome then
        { db with analysis_cache := db.analysis_cache.map (fun c =>
            if c.video_id == video_id then
              { c with last_accessed := now, access_count := c.access_count + 1
                       updated_at := now }
            else c) }
      else db
    (some (convert_db_to_analysis_format row), db')

/-- Delete the first `video_analyses` row with the given video id
(`db.query(VideoAnalysis).filter(...).first()` then `db.delete`). -/
def erase_first_analysis : List VideoAnalysisRow → String → List VideoAnalysisRow
  | [], _ => []
  | r :: rs, vid => if r.video_id == vid then rs else r :: erase_first_analysis rs vid

/-- `clean_old_cache`: delete every cache row last accessed before the
cutoff, together with (the first) analysis row of its video; returns the
number of deleted cache rows. -/
def clean_old_cache (db : CacheDb) (cutoff : Nat) : CacheDb × Nat :=
  let old := db.analysis_cache.filter (fun c => c.last_accessed < cutoff)
  let analyses' := old.foldl (fun rows c => erase_first_analysis rows c.video_id) db.video_analyses
  let caches' := db.analysis_cache.filter (fun c => ¬ c.last_accessed < cutoff)
  ({ db with video_analyses := analyses', analysis_cache := caches' }, old.length)

/-! ## Cache-aware analyzer: `analyze_content_with_ai`
(src/smart_subscription_reporter_v2.py, lines 162-326) -/

/-- Outcome of one attempt to obtain a parsed detailed-analysis JSON from
the OpenAI chat completion.
* `ok d` — the call returned text that parsed to the object `d`
  (the brace-extraction heuristic succeeding is subsumed here);
* `jsonDecodeError` — `json.loads` raised `json.JSONDecodeError`;
* `apiError` — the API call itself raised, the response was empty, or no
  brace-delimited region was found (`ValueError`), i.e. any exception
  reaching the generic `except Exception` branch. -/
inductive LlmOutcome where
  | ok (d : DetailedJson)
  | jsonDecodeError
  | apiError
deriving Repr, DecidableEq

/-- The legacy-compatibility mapping applied to a successfully parsed
result (lines 284-294). -/
def legacy_of_detailed (d : DetailedJson) : AnalysisResult :=
  { summary := d.executive_summary.getD "상세 분석을 확인하세요."
    key_insights := d.detailed_insights.take 4
    sentiment := d.sentiment.getD "neutral"
    importance := d.importance.getD (1/2)
    topics := d.topics
    market_impact := some (d.market_analysis.current_situation.getD "분석 중")
    action_items := some (d.actionable_steps.take 2)
    detailed_analysis := some d }

/-- The result returned when AI analysis is disabled (lines 175-182). -/
def ai_disabled_result (title : String) : AnalysisResult :=
  { summary := "'" ++ title ++ "' - 자막이 성공적으로 추출되었습니다. AI 분석이 비활성화되어 있어 상세 분석을 제공할 수 없습니다."
    key_insights := ["자막 추출 성공", "투자 관련 콘텐츠", "분석 대기 중"]
    sentiment := "neutral", importance := 1/2
    topics := ["투자", "분석"]
    market_impact := none, action_items := none, detailed_analysis := none }

/-- The degraded fallback on `json.JSONDecodeError` (lines 305-314). -/
def json_parse_fallback (title channel_name : String) : AnalysisResult :=
  { summary := "'" ++ title ++ "' 영상은 " ++ channel_name ++ " 채널의 최신 콘텐츠입니다. AI 분석 중 JSON 파싱 오류가 발생했습니다."
    key_insights := ["AI 응답 형식 오류", "수동 검토 필요", "자막 데이터 확보"]
    sentiment := "neutral", importance := 1/2
    topics := ["일반"]
    market_impact := some "분석 대기 중"
    action_items := some ["영상 직접 확인 권장"]
    detailed_analysis := none }

/-- The degraded fallback on any other analysis exception (lines 315-326). -/
def ai_error_fallback (title channel_name : String) : AnalysisResult :=
  { summary := "'" ++ title ++ "' 영상은 " ++ channel_name ++ " 채널의 최신 콘텐츠입니다. 자막이 추출되어 내용 분석이 가능하지만, AI 분석 중 기술적 문제가 발생했습니다."
    key_insights := ["영상 분석 중 오류 발생", "수동 검토 필요", "자막 데이터 확보"]
    sentiment := "neutral", importance := 1/2
    topics := ["일반"]
    market_impact := some "분석 대기 중"
    action_items := some ["영상 직접 확인 권장"]
    detailed_analysis := none }

/-- Result of one analyzer invocation: the returned dictionary, the store
afterwards, and how many LLM-service calls were performed (0 or 1). -/
structure AnalyzeOut where
  res : AnalysisResult
  db : CacheDb
  llm_calls : Nat
deriving Repr, DecidableEq

/-- `analyze_content_with_ai`: cache lookup first (by video id), then the
AI-disabled short-circuit, then one LLM call whose outcome is `llm`; a
parsed result is persisted through `save_analysis_result`, fallbacks are
returned without touching the store. The `transcript` argument only feeds
the prompt (truncated to 15000 chars) and has no other effect. -/
def analyze_content_with_ai (md5hex : String → String) (ai_enabled : Bool)
    (llm : LlmOutcome) (title _transcript channel_name video_id : String)
    (db : CacheDb) (now : Nat) : AnalyzeOut :=
  match get_cached_analysis db video_id now with
  | (some cached, db1) => { res := cached, db := db1, llm_calls := 0 }
  | (none, db1) =>
    if ai_enabled then
      match llm with
      | .ok d =>
        let legacy := legacy_of_detailed d
        let db2 := save_analysis_result md5hex db1 video_id legacy "gpt-4o-mini" now
        { res := legacy, db := db2, llm_calls := 1 }
      | .jsonDecodeError =>
        { res := json_parse_fallback title channel_name, db := db1, llm_calls := 1 }
      | .apiError =>
        { res := ai_error_fallback title channel_name, db := db1, llm_calls := 1 }
    else
      { res := ai_disabled_result title, db := db1, llm_calls := 0 }

/-- One pipeline step of `check_and_analyze_updates` for a single video:
persist the video data (transcript upsert) and then run the cache-aware
analyzer on the transcript text — the shape in which the Cache-Aware
Analyzer is invoked with a `(video_id, transcript_text)` pair. -/
def analyzer_pipeline_step (md5hex : String → String) (ai_enabled : Bool)
    (llm : LlmOutcome) (title channel_name video_id transcript_text : String)
    (db : CacheDb) (now : Nat) : AnalyzeOut :=
  let db1 := save_video_data db video_id (some transcript_text) now
  analyze_content_with_ai md5hex ai_enabled llm title transcript_text channel_name video_id db1 now

/-! ## Operation language for the cache store (claim C2) -/

/-- The VideoCacheService operations relevant to the cache-index
invariant: saving an analysis result, cleaning old cache entries, and
(feeding them) saving video data with an optional transcript. -/
inductive CacheOp where
  | saveVideo (video_id : String) (transcript_text : Option String) (now : Nat)
  | save (video_id : String) (res : AnalysisResult) (ai_model : String) (now : Nat)
  | clean (cutoff : Nat)
deriving Repr

def CacheOp.apply (md5hex : String → String) (db : CacheDb) : CacheOp → CacheDb
  | .saveVideo vid t now => save_video_data db vid t now
  | .save vid res model now => save_analysis_result md5hex db vid res model now
  | .clean cutoff => (clean_old_cache db cutoff).1

def cache_ops_run (md5hex : String → String) (db : CacheDb) : List CacheOp → CacheDb
  | [] => db
  | op :: ops => cache_ops_run md5hex (op.apply md5hex db) ops

/-- A cache-index row exists for the video id. -/
def cache_row_exists (db : CacheDb) (vid : String) : Prop :=
  (find_analysis_cache db vid).isSome

/-- A rich analysis row exists for the video id. -/
def analysis_row_exists (db : CacheDb) (vid : String) : Prop :=
  (find_video_analysis db vid).isSome

instance (db : CacheDb) (vid : String) : Decidable (cache_row_exists db vid) := by
  unfold cache_row_exists; infer_instance

instance (db : CacheDb) (vid : String) : Decidable (analysis_row_exists db vid) := by
  unfold analysis_row_exists; infer_instance

/-- Every `save` in the sequence is applied in a state in which its video
already has a stored transcript (the proviso under which
`_update_cache_info` actually writes the cache row). -/
def saves_have_transcript (md5hex : String → String) (db : CacheDb) : List CacheOp → Bool
  | [] => true
  | op :: ops =>
    (match op with
     | .save vid _ _ _ => (find_transcript db vid).isSome
     | _ => true) &&
    saves_have_transcript md5hex (op.apply md5hex db) ops

/-! ## Credential rotation

Two rotator implementations exist in the source:
`SmartSubscriptionReporterV2._rotate_api_key` /
`_execute_youtube_api_with_retry` (src/smart_subscription_reporter_v2.py)
and `YouTubeService._switch_api_key` / `_handle_quota_exceeded`
(src/app/services/youtube_service.py). -/

/-- Credential-pool state shared by both rotators: the ordered key pool and
the current index. Rebuilding the client object (`build(...)`) is modelled
as always succeeding. -/
structure RotatorState where
  current_key_index : Nat
  api_keys : List String
deriving Repr, DecidableEq

/-- `pat` is a prefix of `s` (over character lists). -/
def chars_start_with : List Char → List Char → Bool
  | _, [] => true
  | [], _ :: _ => false
  | a :: as, b :: bs => a == b && chars_start_with as bs

/-- Naive substring test over character lists (Python's `pat in s`). -/
def chars_contain : List Char → List Char → Bool
  | [], pat => chars_start_with [] pat
  | s@(_ :: rest), pat => chars_start_with s pat || chars_contain rest pat

/-- Python's `pat in s` on strings. -/
def str_contains_sub (s pat : String) : Bool :=
  chars_contain s.data pat.data

/-- Python's `s.lower()` (per-character ASCII lowering suffices for the
API error messages tested against it). -/
def str_lower (s : String) : String :=
  String.mk (s.data.map Char.toLower)

/-- `"quota" in str(e).lower() or "403" in str(e)` (v2 reporter, line 104). -/
def is_quota_or_403 (msg : String) : Bool :=
  str_contains_sub (str_lower msg) "quota" || str_contains_sub msg "403"

/-- `_rotate_api_key`: refuses when the pool has at most one key, otherwise
advances the index **modulo the pool size** (it wraps around). -/
def rotate_api_key (s : RotatorState) : Bool × RotatorState :=
  if s.api_keys.length ≤ 1 then (false, s)
  else (true, { s with current_key_index := (s.current_key_index + 1) % s.api_keys.length })

/-- One v2 API call: the outcome may depend on the key index it is issued
under; `.error msg` is a raised exception with message `msg`. -/
def RotCall := Nat → Except String Nat

/-- The retry loop body of `_execute_youtube_api_with_retry`, with explicit
fuel (the remaining iterations of `range(max_retries)`), the accumulated
attempt count and the `last_error` slot. Returns the outcome (`.error` =
re-raised exception), the final state, and the total number of attempts. -/
def execute_retry_aux (call : RotCall) : Nat → RotatorState → Nat → Option String →
    Except String Nat × RotatorState × Nat
  | 0, s, attempts, lastErr => (.error (lastErr.getD ""), s, attempts)
  | fuel + 1, s, attempts, _ =>
    match call s.current_key_index with
    | .ok v => (.ok v, s, attempts + 1)
    | .error e =>
      if is_quota_or_403 e then
        match rotate_api_key s with
        | (true, s') => execute_retry_aux call fuel s' (attempts + 1) (some e)
        | (false, s') => (.error e, s', attempts + 1)
      else (.error e, s, attempts + 1)

/-- `_execute_youtube_api_with_retry` with its default `max_retries=3`. -/
def execute_youtube_api_with_retry (call : RotCall) (s : RotatorState)
    (max_retries : Nat) : Except String Nat × RotatorState × Nat :=
  execute_retry_aux call max_retries s 0 none

/-- `YouTubeService._switch_api_key`: increments the index; succeeds only
while the new index still points into the pool — it never wraps. -/
def switch_api_key (s : RotatorState) : Bool × RotatorState :=
  let s' := { s with current_key_index := s.current_key_index + 1 }
  if s'.current_key_index < s'.api_keys.length then (true, s') else (false, s')

/-- `YouTubeService._handle_quota_exceeded`: switch only when
`"quotaExceeded" in str(error)`. -/
def handle_quota_exceeded (s : RotatorState) (msg : String) : Bool × RotatorState :=
  if str_contains_sub msg "quotaExceeded" then switch_api_key s else (false, s)

/-- The retry-by-recursion pattern of the YouTubeService call sites (e.g.
`search_channels`): run the call; on an exception consult
`_handle_quota_exceeded` and either recurse or swallow the error and
return the empty result. Returns the result, final state and the number of
attempts. Terminates because a successful switch strictly increases the
index, which stays below the pool size. -/
def service_call_with_retry (call : Nat → Except String (List Nat)) (s : RotatorState) :
    List Nat × RotatorState × Nat :=
  match call s.current_key_index with
  | .ok v => (v, s, 1)
  | .error e =>
    match h : handle_quota_exceeded s e with
    | (true, s') =>
      let r := service_call_with_retry call s'
      (r.1, r.2.1, r.2.2 + 1)
    | (false, s') => ([], s', 1)
termination_by s.api_keys.length - s.current_key_index
decreasing_by
  simp only [handle_quota_exceeded, switch_api_key] at h
  split at h
  · split at h
    · rw [Prod.mk.injEq] at h
      obtain ⟨-, h2⟩ := h
      subst h2
      dsimp only
      omega
    · exact absurd (congrArg Prod.fst h) (by simp)
  · exact absurd (congrArg Prod.fst h) (by simp)

/-! ## Transcript resolver: `YouTubeService.get_video_transcript`
(src/app/services/youtube_service.py, lines 239-381) -/

instance {ε α : Type} [DecidableEq ε] [DecidableEq α] : DecidableEq (Except ε α) := fun x y =>
  match x, y with
  | .ok a, .ok b =>
    if h : a = b then .isTrue (by rw [h]) else .isFalse (by intro hh; exact h (Except.ok.inj hh))
  | .error a, .error b =>
    if h : a = b then .isTrue (by rw [h]) else .isFalse (by intro hh; exact h (Except.error.inj hh))
  | .ok _, .error _ => .isFalse (fun hh => Except.noConfusion hh)
  | .error _, .ok _ => .isFalse (fun hh => Except.noConfusion hh)

/-- One transcript track as enumerated by `list_transcripts`. `fetch` is
the outcome of `transcript.fetch()`: the list of entry texts on success,
or the message of the raised exception (e.g. an XML parse error). -/
structure TranscriptTrack where
  language_code : String
  is_generated : Bool
  fetch : Except String (List String)
deriving Repr, DecidableEq

/-- Outcome of `YouTubeTranscriptApi.list_transcripts`. -/
inductive ListTranscriptsOutcome where
  | transcriptsDisabled
  | listError (msg : String)
  | tracks (ts : List TranscriptTrack)
deriving Repr, DecidableEq

/-- A Python exception escaping a block of the resolver. -/
inductive PyErr where
  | transcriptsDisabled
  | other (msg : String)
deriving Repr, DecidableEq

/-- The resolved transcript dictionary. -/
structure TranscriptResult where
  video_id : String
  transcript_text : String
  is_auto_generated : Bool
  language : String
deriving Repr, DecidableEq

/-- `" ".join(entry['text'] for entry in transcript_data)`. -/
def join_entries (entries : List String) : String :=
  String.intercalate " " entries

/-- The tiered language priorities (lines 252-257): the requested language,
then English, Japanese, and the Chinese variants. -/
def language_priorities (language : String) : List (List String) :=
  [[language], ["en"], ["ja"], ["zh", "zh-cn", "zh-tw"]]

/-- `find_generated_transcript` / `find_manually_created_transcript` of the
transcript-api library: try each language code in order, returning the
first track of the requested kind in that language (`none` models the
`NoTranscriptFound` exception). -/
def find_track (ts : List TranscriptTrack) (generated : Bool) : List String → Option TranscriptTrack
  | [] => none
  | code :: rest =>
    match ts.find? (fun t => t.is_generated == generated && t.language_code == code) with
    | some t => some t
    | none => find_track ts generated rest

/-- One stage of the search (lines 261-300): walk the language-priority
groups; a `NoTranscriptFound` **or any fetch failure** just moves on to the
next group. Returns the chosen track and its joined text. -/
def stage_search (ts : List TranscriptTrack) (generated : Bool) :
    List (List String) → Option (TranscriptTrack × String)
  | [] => none
  | lang_list :: rest =>
    match find_track ts generated lang_list with
    | none => stage_search ts generated rest
    | some t =>
      match t.fetch with
      | .ok entries => some (t, join_entries entries)
      | .error _ => stage_search ts generated rest

/-- The final `if found_transcript and transcript_text` check (lines
363-372): an empty transcript text is reported as "not found". -/
def finalize_transcript (video_id language : String) (auto : Bool) (text : String) :
    Option TranscriptResult :=
  if text = "" then none
  else some { video_id := video_id, transcript_text := text
              is_auto_generated := auto, language := language }

/-- Stages 1-4 of the resolver run over an enumerated track list:
auto-generated tracks by language priority, then manual tracks by the same
priority, then — if any track exists — the first available track preferring
an auto-generated one, with a single fallback to the first manual track
when fetching the auto-generated one raises. -/
def resolve_tracks (video_id language : String) (ts : List TranscriptTrack) :
    Option TranscriptResult :=
  match stage_search ts true (language_priorities language) with
  | some (t, text) => finalize_transcript video_id t.language_code true text
  | none =>
    match stage_search ts false (language_priorities language) with
    | some (t, text) => finalize_transcript video_id t.language_code false text
    | none =>
      if ts.isEmpty then none
      else
        let auto? := ts.find? (fun t => t.is_generated)
        let manual? := ts.find? (fun t => !t.is_generated)
        match auto? with
        | some a =>
          (match a.fetch with
           | .ok entries =>
             finalize_transcript video_id a.language_code a.is_generated (join_entries entries)
           | .error _ =>
             match manual? with
             | some m =>
               (match m.fetch with
                | .ok entries =>
                  finalize_transcript video_id m.language_code false (join_entries entries)
                | .error _ => none)
             | none => none)
        | none =>
          match manual? with
          | some m =>
            (match m.fetch with
             | .ok entries =>
               finalize_transcript video_id m.language_code m.is_generated (join_entries entries)
             | .error _ => none)
          | none => none

/-- The body of `get_video_transcript` without its outermost exception
handlers: an `Except.error` is an exception escaping the body (only the
track enumeration can raise — every inner step is wrapped in its own
handler in the source). -/
def get_video_transcript_body (video_id language : String)
    (outcome : ListTranscriptsOutcome) : Except PyErr (Option TranscriptResult) :=
  match outcome with
  | .transcriptsDisabled => .error .transcriptsDisabled
  | .listError msg => .error (.other msg)
  | .tracks ts => .ok (resolve_tracks video_id language ts)

/-- The full `get_video_transcript` including the outer
`except TranscriptsDisabled` / `except Exception` handlers, both of which
return `None`. A remaining `.error` would be an exception escaping to the
caller. -/
def get_video_transcript (video_id language : String)
    (outcome : ListTranscriptsOutcome) : Except PyErr (Option TranscriptResult) :=
  match get_video_transcript_body video_id language outcome with
  | .ok r => .ok r
  | .error .transcriptsDisabled => .ok none
  | .error (.other _) => .ok none

/-- Claim C7's selection order, written from the specification sentence:
an auto-generated track in the preferred language, then auto-generated
tracks in the fixed fallback language order (English, Japanese, Chinese
variants), then manually authored tracks in the same language order, and
finally — when at least one track exists — the first available track
preferring auto-generated over manual. -/
def claim_selection (language : String) (ts : List TranscriptTrack) :
    Option TranscriptTrack :=
  let langs := [language, "en", "ja", "zh", "zh-cn", "zh-tw"]
  match pick_by_langs ts true langs with
  | some t => some t
  | none =>
    match pick_by_langs ts false langs with
    | some t => some t
    | none =>
      match ts.find? (fun t => t.is_generated) with
      | some t => some t
      | none => ts.find? (fun t => !t.is_generated)
where
  /-- First track of the given kind whose language matches, scanning the
  flat language list in order. -/
  pick_by_langs (ts : List TranscriptTrack) (generated : Bool) :
      List String → Option TranscriptTrack
    | [] => none
    | code :: rest =>
      match ts.find? (fun t => t.is_generated == generated && t.language_code == code) with
      | some t => some t
      | none => pick_by_langs ts generated rest

/-- The text a track's fetch yields on success (used to phrase claim C7's
equivalence under the all-fetches-succeed hypothesis). -/
def fetched_text (t : TranscriptTrack) : String :=
  match t.fetch with
  | .ok entries => join_entries entries
  | .error _ => ""

/-! ## Ingestion pipeline: `DataCollector`
(src/app/services/data_collector.py) -/

/-- Channel metadata as returned by `get_channel_details`. -/
structure ChannelData where
  channel_name : String
  channel_url : String
  description : String
  subscriber_count : Nat
  video_count : Nat
deriving Repr, DecidableEq

/-- One row of the `channels` table (the columns DataCollector writes). -/
structure ChannelRow where
  channel_id : String
  channel_name : String
  channel_url : String
  description : String
  subscriber_count : Nat
  video_count : Nat
deriving Repr, DecidableEq

/-- A video dictionary as returned by `get_channel_videos` /
`search_videos_by_keyword`. `channel_id` is present on the keyword-search
path; the channel-listing path ignores it and uses the queried channel id. -/
structure VideoData where
  video_id : String
  channel_id : String
  title : String
  description : String
  published_at : Nat
  duration : String
  view_count : Nat
  like_count : Nat
  comment_count : Nat
  video_url : String
  thumbnail_url : String
  tags : List String
deriving Repr, DecidableEq

/-- One row of the `videos` table. -/
structure VideoRow where
  video_id : String
  channel_id : String
  title : String
  description : String
  published_at : Nat
  duration : String
  view_count : Nat
  like_count : Nat
  comment_count : Nat
  video_url : String
  thumbnail_url : String
  tags : List String
deriving Repr, DecidableEq

/-- A transcript dictionary as returned by the transcript resolver. -/
structure TranscriptData where
  transcript_text : String
  is_auto_generated : Bool
  language : String
deriving Repr, DecidableEq

/-- One row of the `keywords` table. Primary-key ids are assigned
sequentially at insertion (modelling the autoincrement column). -/
structure KeywordRow where
  id : Nat
  keyword : String
  category : String
deriving Repr, DecidableEq

/-- The result dictionary of `AnalysisService.analyze_transcript` (which
never raises: it has its own internal fallback). -/
structure KeywordAnalysisOutput where
  summary : String
  sentiment_score : ℚ
  key_insights : List String
  importance_score : ℚ
  mentioned_entities : List String
deriving Repr, DecidableEq

/-- One row of the `analyses` table (per-keyword analysis). -/
structure AnalysisRow where
  video_id : String
  keyword_id : Nat
  summary : String
  sentiment_score : ℚ
  key_insights : List String
  importance_score : ℚ
  mentioned_entities : List String
deriving Repr, DecidableEq

/-- The slice of the store touched by DataCollector. -/
structure CollectorDb where
  channels : List ChannelRow
  videos : List VideoRow
  transcripts : List TranscriptRow
  analyses : List AnalysisRow
  keywords : List KeywordRow
deriving Repr, DecidableEq

/-- The external world of one collection run: the YouTube query interface
(already restricted to the lookback window) and the LLM keyword analysis.
All functions are deterministic — "no new upstream videos in between" means
both runs consult the same environment. -/
structure CollectorEnv where
  channel_details : String → Option ChannelData
  channel_videos : String → List VideoData
  keyword_videos : String → List VideoData
  transcript_of : String → Option TranscriptData
  analyze_transcript : String → String → String → List String → KeywordAnalysisOutput

def find_channel_row (db : CollectorDb) (cid : String) : Option ChannelRow :=
  db.channels.find? (fun c => c.channel_id == cid)

def find_video_row (db : CollectorDb) (vid : String) : Option VideoRow :=
  db.videos.find? (fun v => v.video_id == vid)

def find_transcript_row (db : CollectorDb) (vid : String) : Option TranscriptRow :=
  db.transcripts.find? (fun t => t.video_id == vid)

def find_keyword_row (db : CollectorDb) (kw : String) : Option KeywordRow :=
  db.keywords.find? (fun k => k.keyword == kw)

/-- `add_channel`: return the existing row, or fetch metadata and insert;
an unavailable channel (`get_channel_details` returned `None`) yields
`none` and leaves the store unchanged. -/
def add_channel (env : CollectorEnv) (db : CollectorDb) (cid : String) :
    Option ChannelRow × CollectorDb :=
  match find_channel_row db cid with
  | some c => (some c, db)
  | none =>
    match env.channel_details cid with
    | none => (none, db)
    | some cd =>
      let row : ChannelRow :=
        { channel_id := cid, channel_name := cd.channel_name
          channel_url := cd.channel_url, description := cd.description
          subscriber_count := cd.subscriber_count, video_count := cd.video_count }
      (some row, { db with channels := db.channels ++ [row] })

/-- `add_keywords`: insert each keyword not already present (ids assigned
sequentially); the returned keyword objects are not modelled (unused by
the claims). -/
def add_keywords (db : CollectorDb) : List String → String → CollectorDb
  | [], _ => db
  | kw :: rest, category =>
    let d :=
      if (find_keyword_row db kw).isSome then db
      else { db with keywords := db.keywords ++ [{ id := db.keywords.length, keyword := kw, category := category }] }
    add_keywords d rest category

def video_row_of_data (vd : VideoData) (cid : String) : VideoRow :=
  { video_id := vd.video_id, channel_id := cid, title := vd.title
    description := vd.description, published_at := vd.published_at
    duration := vd.duration, view_count := vd.view_count
    like_count := vd.like_count, comment_count := vd.comment_count
    video_url := vd.video_url, thumbnail_url := vd.thumbnail_url
    tags := vd.tags }

/-- The loop body of `collect_channel_videos` over the listed video
dictionaries: insert each video not already stored (first-seen wins) and
collect the newly inserted rows. -/
def collect_videos_loop (cid : String) : List VideoData → CollectorDb → List VideoRow × CollectorDb
  | [], db => ([], db)
  | vd :: rest, db =>
    if (find_video_row db vd.video_id).isSome then collect_videos_loop cid rest db
    else
      let row := video_row_of_data vd cid
      let r := collect_videos_loop cid rest { db with videos := db.videos ++ [row] }
      (row :: r.1, r.2)

/-- `collect_channel_videos`. -/
def collect_channel_videos (env : CollectorEnv) (cid : String) (db : CollectorDb) :
    List VideoRow × CollectorDb :=
  collect_videos_loop cid (env.channel_videos cid) db

/-- The loop body of `collect_keyword_videos`: like the channel path, but
registers the video's channel when unseen before inserting the video row. -/
def collect_keyword_videos_loop (env : CollectorEnv) : List VideoData → CollectorDb → List VideoRow × CollectorDb
  | [], db => ([], db)
  | vd :: rest, db =>
    if (find_video_row db vd.video_id).isSome then collect_keyword_videos_loop env rest db
    else
      let d1 :=
        if (find_channel_row db vd.channel_id).isSome then db
        else (add_channel env db vd.channel_id).2
      let row := video_row_of_data vd vd.channel_id
      let r := collect_keyword_videos_loop env rest { d1 with videos := d1.videos ++ [row] }
      (row :: r.1, r.2)

/-- `collect_keyword_videos`. -/
def collect_keyword_videos (env : CollectorEnv) (kw : String) (db : CollectorDb) :
    List VideoRow × CollectorDb :=
  collect_keyword_videos_loop env (env.keyword_videos kw) db

/-- `collect_video_transcripts`: resolve and insert a transcript for each
video that does not have one; resolution failures are skipped. -/
def collect_video_transcripts (env : CollectorEnv) (now : Nat) :
    List VideoRow → CollectorDb → List TranscriptRow × CollectorDb
  | [], db => ([], db)
  | v :: rest, db =>
    if (find_transcript_row db v.video_id).isSome then
      collect_video_transcripts env now rest db
    else
      match env.transcript_of v.video_id with
      | none => collect_video_transcripts env now rest db
      | some td =>
        let row : TranscriptRow :=
          { video_id := v.video_id, transcript_text := td.transcript_text
            transcript_length := none
            is_auto_generated := td.is_auto_generated
            language := td.language, updated_at := now }
        let r := collect_video_transcripts env now rest { db with transcripts := db.transcripts ++ [row] }
        (row :: r.1, r.2)

/-- The title/description substitute used when the video has no (non-empty)
transcript. -/
def title_description_text (v : VideoRow) : String :=
  "제목: " ++ v.title ++ "\n\n설명: " ++
    (if v.description ≠ "" then v.description.take 1000 else "설명 없음")

/-- The per-keyword `Analysis` rows created for one video: one row per
keyword that exists in the `keywords` table, in keyword order. -/
def analysis_rows_for (db : CollectorDb) (v : VideoRow) (result : KeywordAnalysisOutput)
    (keywords : List String) : List AnalysisRow :=
  keywords.filterMap (fun kw =>
    (find_keyword_row db kw).map (fun krow =>
      { video_id := v.video_id, keyword_id := krow.id
        summary := result.summary
        sentiment_score := result.sentiment_score
        key_insights := result.key_insights
        importance_score := result.importance_score
        mentioned_entities := result.mentioned_entities }))

/-- `analyze_videos`: for each video without any existing per-keyword
analysis row, run the LLM analysis once over its transcript (or
title/description) and insert one `Analysis` row per known keyword.
Returns the created rows, the video ids for which an LLM call was
performed, and the store. -/
def analyze_videos (env : CollectorEnv) (keywords : List String) :
    List VideoRow → CollectorDb → List AnalysisRow × List String × CollectorDb
  | [], db => ([], [], db)
  | v :: rest, db =>
    if (db.analyses.find? (fun a => a.video_id == v.video_id)).isSome then
      analyze_videos env keywords rest db
    else
      let analysis_text :=
        match find_transcript_row db v.video_id with
        | some tr => if tr.transcript_text ≠ "" then tr.transcript_text else title_description_text v
        | none => title_description_text v
      if analysis_text.trim = "" then analyze_videos env keywords rest db
      else
        let channel_name :=
          match find_channel_row db v.channel_id with
          | some c => c.channel_name
          | none => "Unknown"
        let result := env.analyze_transcript analysis_text v.title channel_name keywords
        let new_rows := analysis_rows_for db v result keywords
        let r :=
          analyze_videos env keywords rest { db with analyses := db.analyses ++ new_rows }
        (new_rows ++ r.1, v.video_id :: r.2.1, r.2.2)

/-- The `{video.video_id: video for video in collected_videos}.values()`
deduplication: a dict built in insertion order, a repeated key replacing
the value but keeping the first position. -/
def dict_dedup_by_id (l : List VideoRow) : List VideoRow :=
  l.foldl
    (fun acc v =>
      if (acc.find? (fun w => w.video_id == v.video_id)).isSome then
        acc.map (fun w => if w.video_id == v.video_id then v else w)
      else acc ++ [v])
    []

/-- The summary counts returned by `run_daily_collection`. -/
structure RunCounts where
  total_videos_collected : Nat
  transcripts_collected : Nat
  analyses_performed : Nat
deriving Repr, DecidableEq

/-- The channel loop of `run_daily_collection`: register each channel and,
when it is available, collect its recent videos. -/
def run_channels_loop (env : CollectorEnv) : List String → CollectorDb → List VideoRow × CollectorDb
  | [], db => ([], db)
  | cid :: rest, db =>
    let ac := add_channel env db cid
    if ac.1.isSome then
      let r2 := collect_channel_videos env cid ac.2
      let r3 := run_channels_loop env rest r2.2
      (r2.1 ++ r3.1, r3.2)
    else
      run_channels_loop env rest ac.2

/-- The keyword loop of `run_daily_collection`. -/
def run_keywords_loop (env : CollectorEnv) : List String → CollectorDb → List VideoRow × CollectorDb
  | [], db => ([], db)
  | kw :: rest, db =>
    let r1 := collect_keyword_videos env kw db
    let r2 := run_keywords_loop env rest r1.2
    (r1.1 ++ r2.1, r2.2)

/-- `run_daily_collection`: keywords, channel videos, keyword videos,
dedup, transcripts, then per-keyword analysis of the videos that have a
transcript. -/
def run_daily_collection (env : CollectorEnv) (channel_ids keywords : List String)
    (category : String) (db : CollectorDb) (now : Nat) : CollectorDb × RunCounts :=
  let db1 := add_keywords db keywords category
  let rc := run_channels_loop env channel_ids db1
  let rk := run_keywords_loop env keywords rc.2
  let unique_videos := dict_dedup_by_id (rc.1 ++ rk.1)
  let rt := collect_video_transcripts env now unique_videos rk.2
  let videos_with_transcripts :=
    unique_videos.filter (fun v => (find_transcript_row rt.2 v.video_id).isSome)
  let ra := analyze_videos env keywords videos_with_transcripts rt.2
  (ra.2.2, { total_videos_collected := unique_videos.length
             transcripts_collected := rt.1.length
             analyses_performed := ra.1.length })

/-- `db'` extends `db`: every phase of the collector only appends rows
(channels, videos, transcripts, keywords), never deletes or rewrites. -/
def db_extends (db db' : CollectorDb) : Prop :=
  (∃ e, db'.channels = db.channels ++ e) ∧
  (∃ e, db'.videos = db.videos ++ e) ∧
  (∃ e, db'.transcripts = db.transcripts ++ e) ∧
  (∃ e, db'.keywords = db.keywords ++ e)

/-- Every channel row of `db'` either was already in `db` or belongs to a
channel whose metadata the environment can serve (only `add_channel`
inserts channel rows, and only after `get_channel_details` succeeds). -/
def channels_from_env (env : CollectorEnv) (db db' : CollectorDb) : Prop :=
  ∀ c ∈ db'.channels, c ∈ db.channels ∨ (env.channel_details c.channel_id).isSome

/-- The state reached for one subscribed channel after a completed
collection run: if its metadata is available its row is registered, and
if its row is registered all its listed recent videos are stored. -/
def channel_done (env : CollectorEnv) (db : CollectorDb) (cid : String) : Prop :=
  ((env.channel_details cid).isSome → (find_channel_row db cid).isSome)
  ∧ ((find_channel_row db cid).isSome →
      ∀ vd ∈ env.channel_videos cid, (find_video_row db vd.video_id).isSome)

/-! ## Trend aggregator: `AnalysisService.generate_trend_analysis`
(src/app/services/analysis_service.py, lines 155-298) -/

/-- The fields of an analysis dictionary the aggregator reads
(each through `.get` with a total default). -/
structure TrendInputAnalysis where
  summary : String
  key_insights : List String
  mentioned_entities : List String
  sentiment_score : ℚ
deriving Repr, DecidableEq

/-- The trend-analysis result dictionary. -/
structure TrendResult where
  overall_trend : String
  key_themes : List String
  market_sentiment : String
  hot_topics : List String
  consensus_view : String
  contrarian_views : List String
  risk_factors : List String
  opportunities : List String
  summary : String
deriving Repr, DecidableEq

/-- Outcome of the aggregator's LLM call: a parsed result (missing-field
defaulting subsumed in the payload), or any failure — API exception, empty
response, no brace-delimited region, or a JSON decode error — all of which
reach the single `except Exception` fallback. -/
inductive TrendLlmOutcome where
  | ok (r : TrendResult)
  | failure (msg : String)
deriving Repr, DecidableEq

/-- The early return for an empty analysis list (lines 159-170). -/
def empty_trend_result : TrendResult :=
  { overall_trend := "분석할 데이터가 없습니다"
    key_themes := []
    market_sentiment := "neutral"
    hot_topics := []
    consensus_view := "데이터 부족"
    contrarian_views := []
    risk_factors := []
    opportunities := []
    summary := "분석할 데이터가 없습니다." }

/-- Line 182: the arithmetic mean of the sentiment scores (0 for an empty
list, matching the trailing `if analyses else 0`). -/
def avg_sentiment (analyses : List TrendInputAnalysis) : ℚ :=
  if analyses = [] then 0
  else (analyses.map (fun a => a.sentiment_score)).sum / analyses.length

/-- Line 283: the label derived from the mean. -/
def sentiment_label (avg : ℚ) : String :=
  if avg > 1/10 then "bullish" else if avg < -(1/10) then "bearish" else "neutral"

/-- The flattened entity mentions, in input order. -/
def all_entities (analyses : List TrendInputAnalysis) : List String :=
  analyses.foldl (fun acc a => acc ++ a.mentioned_entities) []

/-- Two-decimal rendering of a rational, standing in for Python's
`f"{avg_sentiment:.2f}"` (which formats the IEEE double; the rounding-mode
difference on exact ties is irrelevant to every claim). -/
def format_q2 (q : ℚ) : String :=
  let n : Int := round (q * 100)
  let sign := if n < 0 then "-" else ""
  let a := n.natAbs
  let frac := a % 100
  sign ++ toString (a / 100) ++ "." ++
    (if frac < 10 then "0" ++ toString frac else toString frac)

/-- The deterministic fallback summary (lines 283-295). Python's
`list(set(...))` has unspecified order; it is modelled as first-occurrence
deduplication. -/
def trend_fallback_result (analyses : List TrendInputAnalysis) (keywords : List String)
    (date_range : String) : TrendResult :=
  let avg := avg_sentiment analyses
  let entities := all_entities analyses
  { overall_trend := date_range ++ " 동안 분석된 " ++ toString analyses.length ++ "개 영상을 바탕으로 한 트렌드"
    key_themes := if keywords ≠ [] then keywords.eraseDups else ["투자", "시장 분석"]
    market_sentiment := sentiment_label avg
    hot_topics := entities.eraseDups.take 5
    consensus_view := "평균 감정 점수 " ++ format_q2 avg ++ "를 기반으로 한 시장 전망"
    contrarian_views := []
    risk_factors := []
    opportunities := []
    summary := date_range ++ " 동안 " ++ toString analyses.length ++ "개 영상이 분석되었으며, 평균 감정 점수는 " ++ format_q2 avg ++ "입니다." }

/-- `generate_trend_analysis`: empty input short-circuits; otherwise one
LLM call whose success is returned as parsed (after required-field
defaulting) and whose failure of any kind produces the deterministic
statistics-only fallback. Total — the aggregator never raises. -/
def generate_trend_analysis (llm : TrendLlmOutcome) (analyses : List TrendInputAnalysis)
    (keywords : List String) (date_range : String) : TrendResult :=
  if analyses.isEmpty then empty_trend_result
  else
    match llm with
    | .ok r => r
    | .failure _ => trend_fallback_result analyses keywords date_range

/-- The video ids carrying a rich analysis row, in row order. -/
def analysis_vids (db : CacheDb) : List String :=
  db.video_analyses.map (fun a => a.video_id)

/-- The video ids carrying a cache-index row, in row order. -/
def cache_vids (db : CacheDb) : List String :=
  db.analysis_cache.map (fun c => c.video_id)

/-- Structural well-formedness maintained by the cache store: at most one
analysis row and at most one cache row per video id, and every cache row
backed by an analysis row. -/
def cache_db_inv (db : CacheDb) : Prop :=
  (analysis_vids db).Nodup ∧ (cache_vids db).Nodup
  ∧ ∀ vid, cache_row_exists db vid → analysis_row_exists db vid

/-- The claimed invariant: a cache-index row exists iff an analysis row
exists. -/
def cache_db_iff (db : CacheDb) : Prop :=
  ∀ vid, cache_row_exists db vid ↔ analysis_row_exists db vid

/-! ## Concrete scenario data for closed counterexamples and witnesses -/

/-- A concrete stand-in digest for closed evaluations (no claim depends on
properties of the digest function). -/
def md5_demo : String → String := fun s => s

/-- Two distinct parsed LLM payloads for closed counterexamples. -/
def demo_detail_1 : DetailedJson :=
  { DetailedJson.empty with executive_summary := some "R1", sentiment := some "positive" }

def demo_detail_2 : DetailedJson :=
  { DetailedJson.empty with executive_summary := some "R2", sentiment := some "negative" }

/-- First analyzer call: video `v1`, transcript `"transcript one"`. -/
def c1_step1 : AnalyzeOut :=
  analyzer_pipeline_step md5_demo true (.ok demo_detail_1) "title" "chan" "v1" "transcript one"
    CacheDb.empty 0

/-- Second call, identical `(video_id, transcript_text)`. -/
def c1_step2 : AnalyzeOut :=
  analyzer_pipeline_step md5_demo true (.ok demo_detail_1) "title" "chan" "v1" "transcript one"
    c1_step1.db 1

/-- Third call, same video id but a **changed** transcript text. -/
def c1_step3 : AnalyzeOut :=
  analyzer_pipeline_step md5_demo true (.ok demo_detail_2) "title" "chan" "v1" "transcript two"
    c1_step2.db 2

/-- A concrete collector environment for closed witnesses: nothing
upstream, and a fixed LLM answer. -/
def demo_env : CollectorEnv :=
  { channel_details := fun _ => none
    channel_videos := fun _ => []
    keyword_videos := fun _ => []
    transcript_of := fun _ => none
    analyze_transcript := fun _ _ _ _ =>
      { summary := "요약", sentiment_score := 0, key_insights := []
        importance_score := 0, mentioned_entities := [] } }

/-- A concrete stored video row. -/
def demo_video_v0 : VideoRow :=
  { video_id := "v0", channel_id := "c0", title := "제목", description := "설명"
    published_at := 0, duration := "PT1M", view_count := 0, like_count := 0
    comment_count := 0, video_url := "u", thumbnail_url := "t", tags := [] }

/-- A store already holding one `Analysis` row for `v0` (keyword id 0). -/
def demo_db_c10 : CollectorDb :=
  { channels := []
    videos := [demo_video_v0]
    transcripts := []
    analyses := [{ video_id := "v0", keyword_id := 0, summary := "s"
                   sentiment_score := 0, key_insights := []
                   importance_score := 0, mentioned_entities := [] }]
    keywords := [{ id := 0, keyword := "금리", category := "투자" }] }

/-! # Theorems -/

/-! ### Cache-aware analyzer (C1, C3) -/

theorem update_cache_info_video_analyses (md5hex : String → String) (db : CacheDb)
    (vid m : String) (n : Nat) :
    (update_cache_info md5hex db vid m n).video_analyses = db.video_analyses := by
  unfold update_cache_info
  cases find_transcript db vid with
  | none => rfl
  | some tr =>
    dsimp only
    split <;> rfl

theorem get_cached_analysis_snd_video_analyses (db : CacheDb) (vid : String) (n : Nat) :
    (get_cached_analysis db vid n).2.video_analyses = db.video_analyses := by
  unfold get_cached_analysis
  cases find_video_analysis db vid with
  | none => rfl
  | some row =>
    dsimp only
    split <;> rfl

theorem save_video_data_video_analyses (db : CacheDb) (vid : String) (t : Option String) (n : Nat) :
    (save_video_data db vid t n).video_analyses = db.video_analyses := by
  cases t with
  | none => rfl
  | some tt =>
    simp only [save_video_data, save_transcript]
    split <;> rfl

theorem find_video_analysis_congr {db1 db2 : CacheDb} (w : String)
    (h : db1.video_analyses = db2.video_analyses) :
    find_video_analysis db1 w = find_video_analysis db2 w := by
  unfold find_video_analysis
  rw [h]

theorem get_cached_analysis_of_none {db : CacheDb} {vid : String} (n : Nat)
    (h : find_video_analysis db vid = none) :
    get_cached_analysis db vid n = (none, db) := by
  unfold get_cached_analysis
  rw [h]

theorem get_cached_analysis_fst_of_some {db : CacheDb} {vid : String} {row : VideoAnalysisRow}
    (n : Nat) (h : find_video_analysis db vid = some row) :
    (get_cached_analysis db vid n).1 = some (convert_db_to_analysis_format row) := by
  unfold get_cached_analysis
  rw [h]

theorem get_cached_analysis_pair {db : CacheDb} {vid : String} {row : VideoAnalysisRow}
    (n : Nat) (h : find_video_analysis db vid = some row) :
    get_cached_analysis db vid n
      = (some (convert_db_to_analysis_format row), (get_cached_analysis db vid n).2) := by
  rw [← get_cached_analysis_fst_of_some n h]

/-- Inserting a fresh analysis row: the row subsequently found for the
video is the just-built one. -/
theorem save_analysis_result_insert (md5hex : String → String) {db : CacheDb} {vid : String}
    (res : AnalysisResult) (m : String) (n : Nat)
    (h : find_video_analysis db vid = none) :
    find_video_analysis (save_analysis_result md5hex db vid res m n) vid
      = some (new_video_analysis_row vid res m n) := by
  unfold save_analysis_result upsert_video_analysis
  rw [if_neg (by rw [h]; simp)]
  rw [find_video_analysis_congr vid (update_cache_info_video_analyses md5hex _ vid m n)]
  unfold find_video_analysis at h ⊢
  dsimp only
  rw [List.find?_append, h, Option.none_or]
  simp [new_video_analysis_row]

/-- A cache hit: the analyzer returns the stored row converted back,
performs no LLM call, and leaves the `video_analyses` table untouched. -/
theorem analyzer_pipeline_step_hit (md5hex : String → String) (ai : Bool) (llm : LlmOutcome)
    (title ch vid t : String) {db : CacheDb} {row : VideoAnalysisRow} (n : Nat)
    (h : find_video_analysis db vid = some row) :
    analyzer_pipeline_step md5hex ai llm title ch vid t db n
      = ⟨convert_db_to_analysis_format row,
         (get_cached_analysis (save_video_data db vid (some t) n) vid n).2, 0⟩ := by
  have h1 : find_video_analysis (save_video_data db vid (some t) n) vid = some row := by
    rw [find_video_analysis_congr vid (save_video_data_video_analyses db vid (some t) n)]
    exact h
  unfold analyzer_pipeline_step analyze_content_with_ai
  dsimp only
  rw [get_cached_analysis_pair n h1]

/-- A cache miss with a successfully parsed LLM response: one LLM call,
and the legacy result is persisted. -/
theorem analyzer_pipeline_step_miss_ok (md5hex : String → String) (d : DetailedJson)
    (title ch vid t : String) {db : CacheDb} (n : Nat)
    (h : find_video_analysis db vid = none) :
    analyzer_pipeline_step md5hex true (.ok d) title ch vid t db n
      = ⟨legacy_of_detailed d,
         save_analysis_result md5hex (save_video_data db vid (some t) n) vid
           (legacy_of_detailed d) "gpt-4o-mini" n, 1⟩ := by
  have h1 : find_video_analysis (save_video_data db vid (some t) n) vid = none := by
    rw [find_video_analysis_congr vid (save_video_data_video_analyses db vid (some t) n)]
    exact h
  unfold analyzer_pipeline_step analyze_content_with_ai
  dsimp only
  rw [get_cached_analysis_of_none n h1]
  rfl

/-! ### Credential rotation (C4, C5) -/

theorem rotate_api_key_of_two_le {s : RotatorState} (h : 2 ≤ s.api_keys.length) :
    rotate_api_key s =
      (true, { s with current_key_index := (s.current_key_index + 1) % s.api_keys.length }) := by
  unfold rotate_api_key
  rw [if_neg (by omega)]

/-- With every credential quota-exhausted and a pool of at least two keys,
the v2 retry loop burns its entire fuel, one attempt per iteration, and
ends by re-raising. -/
theorem execute_retry_aux_all_quota (call : RotCall)
    (hq : ∀ i, ∃ e, call i = .error e ∧ is_quota_or_403 e = true) :
    ∀ (fuel : Nat) (s : RotatorState), 2 ≤ s.api_keys.length →
      ∀ (a : Nat) (le : Option String),
      ∃ e s', execute_retry_aux call fuel s a le = (.error e, s', a + fuel)
        ∧ s'.api_keys = s.api_keys := by
  intro fuel
  induction fuel with
  | zero => intro s _ a le; exact ⟨le.getD "", s, rfl, rfl⟩
  | succ fuel ih =>
    intro s hlen a le
    obtain ⟨e, hc, hqe⟩ := hq s.current_key_index
    have hrot := rotate_api_key_of_two_le hlen
    obtain ⟨e', s', heq, hkeys⟩ :=
      ih { s with current_key_index := (s.current_key_index + 1) % s.api_keys.length }
        (by simpa using hlen) (a + 1) (some e)
    refine ⟨e', s', ?_, by simpa using hkeys⟩
    simp only [execute_retry_aux, hc, hqe, if_true, hrot, heq]
    congr 2
    omega

/-- With every credential quota-exhausted, the YouTubeService
recursion performs one attempt per remaining credential and then swallows
the error, returning the empty result. -/
theorem service_call_all_quota (scall : Nat → Except String (List Nat))
    (hq : ∀ i, ∃ e, scall i = .error e ∧ str_contains_sub e "quotaExceeded" = true) :
    ∀ (n : Nat) (s : RotatorState), s.api_keys.length - s.current_key_index = n → 0 < n →
      (service_call_with_retry scall s).1 = []
        ∧ (service_call_with_retry scall s).2.2 = n := by
  intro n
  induction n using Nat.strong_induction_on with
  | _ n ih =>
    intro s hn hpos
    obtain ⟨e, hc, hqe⟩ := hq s.current_key_index
    rw [service_call_with_retry.eq_def, hc]
    simp only []
    split
    next s' h =>
      -- a successful switch: the index advanced and still points into the pool
      have h' := h
      simp only [handle_quota_exceeded, switch_api_key, hqe, if_true] at h'
      split at h'
      next hc2 =>
        obtain ⟨-, hs'⟩ := Prod.mk.injEq .. ▸ h'
        subst hs'
        have hrec := ih (n - 1) (by omega)
          { s with current_key_index := s.current_key_index + 1 }
          (show s.api_keys.length - (s.current_key_index + 1) = n - 1 by omega)
          (by omega)
        refine ⟨hrec.1, ?_⟩
        show (service_call_with_retry scall _).2.2 + 1 = n
        rw [hrec.2]
        omega
      next hc2 =>
        exact absurd (congrArg Prod.fst h') (by simp)
    next s' h =>
      refine ⟨rfl, ?_⟩
      -- the switch failed: the pool is exhausted, so this was the last credential
      have h' := h
      simp only [handle_quota_exceeded, switch_api_key, hqe, if_true] at h'
      split at h'
      next hc2 =>
        exact absurd (congrArg Prod.fst h') (by simp)
      next hc2 =>
        show 1 = n
        omega

/-- Counterexample to C4: with a pool of `k = 2` credentials all returning
quota-exhausted, `_execute_youtube_api_with_retry` performs 3 attempts
(its fixed `max_retries`), not `k = 2`, cycling back to the first
credential. -/
theorem C4_counterexample :
    (execute_youtube_api_with_retry (fun _ => .error "quotaExceeded") ⟨0, ["key1", "key2"]⟩ 3).2.2 = 3
    ∧ (execute_youtube_api_with_retry (fun _ => .error "quotaExceeded") ⟨0, ["key1", "key2"]⟩ 3).1
        = .error "quotaExceeded"
    ∧ (3 : Nat) ≠ 2 := by
  exact ⟨by decide, rfl, by decide⟩

/-- C4 (amended): with a pool of `k` credentials all returning a
quota-exhausted error, `_execute_youtube_api_with_retry` performs exactly
1 attempt when `k ≤ 1` and exactly `max_retries = 3` attempts when
`k ≥ 2` (regardless of `k`, cycling modulo the pool), and re-raises the
quota-exhausted error; the YouTubeService call sites instead perform
exactly one attempt per remaining credential (`k` attempts from a fresh
state) and then swallow the error, returning the empty result instead of
re-raising. -/
theorem C4_amended :
    (∀ (call : RotCall) (s : RotatorState),
      (∀ i, ∃ e, call i = .error e ∧ is_quota_or_403 e = true) →
      (s.api_keys.length ≤ 1 →
        ∃ e, execute_youtube_api_with_retry call s 3 = (.error e, s, 1))
      ∧ (2 ≤ s.api_keys.length →
        ∃ e s', execute_youtube_api_with_retry call s 3 = (.error e, s', 3)))
    ∧ (∀ (scall : Nat → Except String (List Nat)) (s : RotatorState),
      (∀ i, ∃ e, scall i = .error e ∧ str_contains_sub e "quotaExceeded" = true) →
      s.current_key_index < s.api_keys.length →
      (service_call_with_retry scall s).1 = []
        ∧ (service_call_with_retry scall s).2.2
            = s.api_keys.length - s.current_key_index) := by
  constructor
  · intro call s hq
    constructor
    · intro hle
      obtain ⟨e, hc, hqe⟩ := hq s.current_key_index
      refine ⟨e, ?_⟩
      unfold execute_youtube_api_with_retry
      simp only [execute_retry_aux, hc, hqe, if_true]
      unfold rotate_api_key
      rw [if_pos hle]
    · intro h2
      obtain ⟨e, s', heq, -⟩ := execute_retry_aux_all_quota call hq 3 s h2 0 none
      exact ⟨e, s', heq⟩
  · intro scall s hq hlt
    exact service_call_all_quota scall hq _ s rfl (by omega)

/-- Witness for C4 (amended): both components applied at concrete
all-quota pools. -/
theorem C4_amended_witness :
    (∃ e, execute_youtube_api_with_retry (fun _ => .error "quotaExceeded") ⟨0, ["only"]⟩ 3
        = (.error e, ⟨0, ["only"]⟩, 1))
    ∧ ((service_call_with_retry (fun _ => .error "quotaExceeded") ⟨0, ["a", "b", "c"]⟩).1 = []
       ∧ (service_call_with_retry (fun _ => .error "quotaExceeded") ⟨0, ["a", "b", "c"]⟩).2.2 = 3 - 0) :=
  ⟨((C4_amended.1 (fun _ => .error "quotaExceeded") ⟨0, ["only"]⟩
      (fun _ => ⟨"quotaExceeded", rfl, by decide⟩)).1 (by decide)),
   (C4_amended.2 (fun _ => .error "quotaExceeded") ⟨0, ["a", "b", "c"]⟩
      (fun _ => ⟨"quotaExceeded", rfl, by decide⟩) (by decide))⟩

/-- Counterexample to C5: the v2 reporter's rotator wraps — with two keys,
two rotations bring the current index from 0 to 1 and back to 0, so the
index is not monotone and the first (exhausted) credential is selected
again. -/
theorem C5_counterexample :
    (rotate_api_key ⟨0, ["k1", "k2"]⟩).2.current_key_index = 1
    ∧ ((rotate_api_key (rotate_api_key ⟨0, ["k1", "k2"]⟩).2).2).current_key_index = 0 := by
  exact ⟨by decide, by decide⟩

/-- C5 (amended): `YouTubeService._switch_api_key` increments the index by
exactly one each time — across any sequence of switches the index is the
start plus the number of switches, hence monotone, never wrapping, and
never re-selecting an advanced-past credential — and any
`service_call_with_retry` leaves the index no smaller than it was. The v2
reporter's `_rotate_api_key`, by contrast, advances modulo the pool size
(it wraps, as the counterexample shows). -/
theorem C5_amended :
    (∀ s : RotatorState, (switch_api_key s).2.current_key_index = s.current_key_index + 1)
    ∧ (∀ (s : RotatorState) (n : Nat),
        ((fun st => (switch_api_key st).2)^[n] s).current_key_index = s.current_key_index + n)
    ∧ (∀ (scall : Nat → Except String (List Nat)) (s : RotatorState),
        s.current_key_index ≤ (service_call_with_retry scall s).2.1.current_key_index)
    ∧ (∀ s : RotatorState, 2 ≤ s.api_keys.length →
        (rotate_api_key s).2.current_key_index = (s.current_key_index + 1) % s.api_keys.length) := by
  have hswitch : ∀ s : RotatorState, (switch_api_key s).2.current_key_index = s.current_key_index + 1 := by
    intro s
    simp only [switch_api_key]
    split <;> rfl
  refine ⟨hswitch, ?_, ?_, ?_⟩
  · intro s n
    induction n with
    | zero => rfl
    | succ n ihn =>
      rw [Function.iterate_succ_apply', hswitch, ihn]
      omega
  · intro scall s
    generalize hn : s.api_keys.length - s.current_key_index = n
    induction n using Nat.strong_induction_on generalizing s with
    | _ n ih =>
      cases hc : scall s.current_key_index with
      | ok v => rw [service_call_with_retry.eq_def, hc]
      | error e =>
        rw [service_call_with_retry.eq_def, hc]
        simp only []
        split
        next s' h =>
          have h' := h
          simp only [handle_quota_exceeded, switch_api_key] at h'
          split at h'
          · split at h'
            next hc2 =>
              obtain ⟨-, hs'⟩ := Prod.mk.injEq .. ▸ h'
              subst hs'
              have hrec := ih (s.api_keys.length - (s.current_key_index + 1)) (by omega)
                { s with current_key_index := s.current_key_index + 1 } rfl
              have hidx : ({ s with current_key_index := s.current_key_index + 1 } :
                  RotatorState).current_key_index = s.current_key_index + 1 := rfl
              show s.current_key_index
                ≤ (service_call_with_retry scall
                    { s with current_key_index := s.current_key_index + 1 }).2.1.current_key_index
              omega
            next hc2 =>
              exact absurd (congrArg Prod.fst h') (by simp)
          · exact absurd (congrArg Prod.fst h') (by simp)
        next s' h =>
          have h' := h
          simp only [handle_quota_exceeded, switch_api_key] at h'
          split at h'
          · split at h'
            next hc2 =>
              exact absurd (congrArg Prod.fst h') (by simp)
            next hc2 =>
              obtain ⟨-, hs'⟩ := Prod.mk.injEq .. ▸ h'
              subst hs'
              show s.current_key_index ≤ s.current_key_index + 1
              omega
          · obtain ⟨-, hs'⟩ := Prod.mk.injEq .. ▸ h'
            subst hs'
            exact Nat.le_refl _
  · intro s h2
    rw [rotate_api_key_of_two_le h2]

/-- Witness for C5 (amended): the wrap-forbidding component of
`_switch_api_key` needs no hypothesis; the modulo component applied at a
two-key pool. -/
theorem C5_amended_witness :
    (rotate_api_key ⟨1, ["k1", "k2"]⟩).2.current_key_index = (1 + 1) % 2 :=
  C5_amended.2.2.2 ⟨1, ["k1", "k2"]⟩ (by decide)

/-- Counterexample to C1: after analyzing video `v1` with transcript
`"transcript one"` (one LLM call) and a repeat call (zero calls, as the
claim states), a third call with the **changed** transcript
`"transcript two"` performs **zero** further LLM calls — not the claimed
second call — and the stored analysis still carries the first response
`R1`: the lookup is keyed by video id alone and never consults the
content-derived cache key. -/
theorem C1_counterexample :
    c1_step1.llm_calls = 1 ∧ c1_step2.llm_calls = 0
    ∧ c1_step3.llm_calls = 0
    ∧ find_video_analysis c1_step3.db "v1" = find_video_analysis c1_step1.db "v1"
    ∧ (find_video_analysis c1_step3.db "v1").map (fun r => r.executive_summary) = some "R1"
    ∧ c1_step3.res = c1_step2.res :=
  ⟨rfl, rfl, rfl, rfl, rfl, rfl⟩

/-- C1 (amended): calling the Cache-Aware Analyzer twice with the same
`(video_id, transcript_text)` performs exactly one LLM-service call, and
calling it again with a **changed** transcript text for the same video id
performs **no** further LLM-service call and returns the result converted
from the analysis row stored by the first call — the stored analysis is
not updated, because `get_cached_analysis` looks up by video id only and
never compares the stored cache key against the current transcript. -/
theorem C1_amended (md5hex : String → String) (d1 d2 : DetailedJson)
    (title ch vid t1 t2 : String) (db : CacheDb) (n0 n1 n2 : Nat)
    (hmiss : find_video_analysis db vid = none) :
    let s1 := analyzer_pipeline_step md5hex true (.ok d1) title ch vid t1 db n0
    let s2 := analyzer_pipeline_step md5hex true (.ok d1) title ch vid t1 s1.db n1
    let s3 := analyzer_pipeline_step md5hex true (.ok d2) title ch vid t2 s2.db n2
    let row := new_video_analysis_row vid (legacy_of_detailed d1) "gpt-4o-mini" n0
    s1.llm_calls = 1 ∧ s1.res = legacy_of_detailed d1
    ∧ s2.llm_calls = 0 ∧ s2.res = convert_db_to_analysis_format row
    ∧ s3.llm_calls = 0 ∧ s3.res = convert_db_to_analysis_format row
    ∧ find_video_analysis s3.db vid = some row := by
  intro s1 s2 s3 row
  have e1 := analyzer_pipeline_step_miss_ok md5hex d1 title ch vid t1 n0 hmiss
  have hrow1 : find_video_analysis s1.db vid = some row := by
    show find_video_analysis (analyzer_pipeline_step md5hex true (.ok d1) title ch vid t1 db n0).db vid
      = some row
    rw [e1]
    exact save_analysis_result_insert md5hex (legacy_of_detailed d1) "gpt-4o-mini" n0
      (by rw [find_video_analysis_congr vid (save_video_data_video_analyses db vid (some t1) n0)]
          exact hmiss)
  have e2 := analyzer_pipeline_step_hit md5hex true (.ok d1) title ch vid t1 n1 hrow1
  have hrow2 : find_video_analysis s2.db vid = some row := by
    show find_video_analysis
      (analyzer_pipeline_step md5hex true (.ok d1) title ch vid t1 s1.db n1).db vid = some row
    rw [e2]
    rw [find_video_analysis_congr vid (get_cached_analysis_snd_video_analyses _ vid n1)]
    rw [find_video_analysis_congr vid (save_video_data_video_analyses s1.db vid (some t1) n1)]
    exact hrow1
  have e3 := analyzer_pipeline_step_hit md5hex true (.ok d2) title ch vid t2 n2 hrow2
  have hrow3 : find_video_analysis s3.db vid = some row := by
    show find_video_analysis
      (analyzer_pipeline_step md5hex true (.ok d2) title ch vid t2 s2.db n2).db vid = some row
    rw [e3]
    rw [find_video_analysis_congr vid (get_cached_analysis_snd_video_analyses _ vid n2)]
    rw [find_video_analysis_congr vid (save_video_data_video_analyses s2.db vid (some t2) n2)]
    exact hrow2
  refine ⟨?_, ?_, ?_, ?_, ?_, ?_, hrow3⟩
  · show (analyzer_pipeline_step md5hex true (.ok d1) title ch vid t1 db n0).llm_calls = 1
    rw [e1]
  · show (analyzer_pipeline_step md5hex true (.ok d1) title ch vid t1 db n0).res
      = legacy_of_detailed d1
    rw [e1]
  · show (analyzer_pipeline_step md5hex true (.ok d1) title ch vid t1 s1.db n1).llm_calls = 0
    rw [e2]
  · show (analyzer_pipeline_step md5hex true (.ok d1) title ch vid t1 s1.db n1).res
      = convert_db_to_analysis_format row
    rw [e2]
  · show (analyzer_pipeline_step md5hex true (.ok d2) title ch vid t2 s2.db n2).llm_calls = 0
    rw [e3]
  · show (analyzer_pipeline_step md5hex true (.ok d2) title ch vid t2 s2.db n2).res
      = convert_db_to_analysis_format row
    rw [e3]

/-- Witness for C1 (amended): the amended statement at the concrete
counterexample scenario. -/
theorem C1_amended_witness :
    let s1 := analyzer_pipeline_step md5_demo true (.ok demo_detail_1) "title" "chan" "v1"
      "transcript one" CacheDb.empty 0
    let s2 := analyzer_pipeline_step md5_demo true (.ok demo_detail_1) "title" "chan" "v1"
      "transcript one" s1.db 1
    let s3 := analyzer_pipeline_step md5_demo true (.ok demo_detail_2) "title" "chan" "v1"
      "transcript two" s2.db 2
    let row := new_video_analysis_row "v1" (legacy_of_detailed demo_detail_1) "gpt-4o-mini" 0
    s1.llm_calls = 1 ∧ s1.res = legacy_of_detailed demo_detail_1
    ∧ s2.llm_calls = 0 ∧ s2.res = convert_db_to_analysis_format row
    ∧ s3.llm_calls = 0 ∧ s3.res = convert_db_to_analysis_format row
    ∧ find_video_analysis s3.db "v1" = some row :=
  C1_amended md5_demo demo_detail_1 demo_detail_2 "title" "chan" "v1"
    "transcript one" "transcript two" CacheDb.empty 0 1 2 rfl

/-- C3: for every input on which the LLM-service call fails or its
response cannot be parsed as JSON, the Cache-Aware Analyzer returns the
degraded fallback result (neutral sentiment, generic summary) — the
exception is caught inside `analyze_content_with_ai`, so nothing is
raised — and the store is completely unchanged (no cache-index row and no
analysis row is created or updated), so a subsequent call for the same
video performs a fresh LLM attempt. -/
theorem C3_degraded_result_not_cached (md5hex : String → String) (llm : LlmOutcome)
    (title transcript channel_name video_id : String) (db : CacheDb) (now now2 : Nat)
    (hmiss : find_video_analysis db video_id = none)
    (hfail : llm = .jsonDecodeError ∨ llm = .apiError) :
    let out := analyze_content_with_ai md5hex true llm title transcript channel_name video_id db now
    out.db = db ∧ out.llm_calls = 1
    ∧ out.res.sentiment = "neutral"
    ∧ (out.res = json_parse_fallback title channel_name
        ∨ out.res = ai_error_fallback title channel_name)
    ∧ (analyze_content_with_ai md5hex true llm title transcript channel_name video_id
        out.db now2).llm_calls = 1 := by
  intro out
  have hc : ∀ m : Nat, get_cached_analysis db video_id m = (none, db) :=
    fun m => get_cached_analysis_of_none m hmiss
  rcases hfail with h | h <;> subst h
  · have e : analyze_content_with_ai md5hex true .jsonDecodeError title transcript
        channel_name video_id db now = ⟨json_parse_fallback title channel_name, db, 1⟩ := by
      unfold analyze_content_with_ai
      rw [hc now]
      rfl
    have hdb : out.db = db := by
      show (analyze_content_with_ai md5hex true .jsonDecodeError title transcript
        channel_name video_id db now).db = db
      rw [e]
    refine ⟨hdb, ?_, ?_, Or.inl ?_, ?_⟩
    · show (analyze_content_with_ai md5hex true .jsonDecodeError title transcript
        channel_name video_id db now).llm_calls = 1
      rw [e]
    · show (analyze_content_with_ai md5hex true .jsonDecodeError title transcript
        channel_name video_id db now).res.sentiment = "neutral"
      rw [e]
      rfl
    · show (analyze_content_with_ai md5hex true .jsonDecodeError title transcript
        channel_name video_id db now).res = json_parse_fallback title channel_name
      rw [e]
    · rw [hdb]
      unfold analyze_content_with_ai
      rw [hc now2]
      rfl
  · have e : analyze_content_with_ai md5hex true .apiError title transcript
        channel_name video_id db now = ⟨ai_error_fallback title channel_name, db, 1⟩ := by
      unfold analyze_content_with_ai
      rw [hc now]
      rfl
    have hdb : out.db = db := by
      show (analyze_content_with_ai md5hex true .apiError title transcript
        channel_name video_id db now).db = db
      rw [e]
    refine ⟨hdb, ?_, ?_, Or.inr ?_, ?_⟩
    · show (analyze_content_with_ai md5hex true .apiError title transcript
        channel_name video_id db now).llm_calls = 1
      rw [e]
    · show (analyze_content_with_ai md5hex true .apiError title transcript
        channel_name video_id db now).res.sentiment = "neutral"
      rw [e]
      rfl
    · show (analyze_content_with_ai md5hex true .apiError title transcript
        channel_name video_id db now).res = ai_error_fallback title channel_name
      rw [e]
    · rw [hdb]
      unfold analyze_content_with_ai
      rw [hc now2]
      rfl

/-- Witness for C3: the failing-LLM analyzer applied at a concrete empty
store. -/
theorem C3_degraded_witness :
    let out := analyze_content_with_ai md5_demo true .apiError "T" "tr" "Ch" "vid"
      CacheDb.empty 0
    out.db = CacheDb.empty ∧ out.llm_calls = 1
    ∧ out.res.sentiment = "neutral"
    ∧ (out.res = json_parse_fallback "T" "Ch" ∨ out.res = ai_error_fallback "T" "Ch")
    ∧ (analyze_content_with_ai md5_demo true .apiError "T" "tr" "Ch" "vid"
        out.db 1).llm_calls = 1 :=
  C3_degraded_result_not_cached md5_demo .apiError "T" "tr" "Ch" "vid" CacheDb.empty 0 1
    rfl (Or.inr rfl)

/-! ### The cache-index invariant (C2) -/

theorem analysis_row_exists_iff_mem {db : CacheDb} {vid : String} :
    analysis_row_exists db vid ↔ vid ∈ analysis_vids db := by
  unfold analysis_row_exists find_video_analysis analysis_vids
  rw [List.find?_isSome]
  constructor
  · rintro ⟨x, hx, hpx⟩
    exact List.mem_map.2 ⟨x, hx, beq_iff_eq.mp hpx⟩
  · intro hm
    obtain ⟨x, hx, he⟩ := List.mem_map.1 hm
    exact ⟨x, hx, beq_iff_eq.mpr he⟩

theorem cache_row_exists_iff_mem {db : CacheDb} {vid : String} :
    cache_row_exists db vid ↔ vid ∈ cache_vids db := by
  unfold cache_row_exists find_analysis_cache cache_vids
  rw [List.find?_isSome]
  constructor
  · rintro ⟨x, hx, hpx⟩
    exact List.mem_map.2 ⟨x, hx, beq_iff_eq.mp hpx⟩
  · intro hm
    obtain ⟨x, hx, he⟩ := List.mem_map.1 hm
    exact ⟨x, hx, beq_iff_eq.mpr he⟩

theorem save_video_data_analysis_cache (db : CacheDb) (vid : String) (t : Option String) (n : Nat) :
    (save_video_data db vid t n).analysis_cache = db.analysis_cache := by
  cases t with
  | none => rfl
  | some tt =>
    simp only [save_video_data, save_transcript]
    split <;> rfl

theorem update_cache_info_transcripts (md5hex : String → String) (db : CacheDb)
    (vid m : String) (n : Nat) :
    (update_cache_info md5hex db vid m n).transcripts = db.transcripts := by
  unfold update_cache_info
  cases find_transcript db vid with
  | none => rfl
  | some tr =>
    dsimp only
    split <;> rfl

theorem upsert_video_analysis_transcripts (db : CacheDb) (vid : String)
    (res : AnalysisResult) (m : String) (n : Nat) :
    (upsert_video_analysis db vid res m n).transcripts = db.transcripts := by
  unfold upsert_video_analysis
  split <;> rfl

theorem upsert_video_analysis_analysis_cache (db : CacheDb) (vid : String)
    (res : AnalysisResult) (m : String) (n : Nat) :
    (upsert_video_analysis db vid res m n).analysis_cache = db.analysis_cache := by
  unfold upsert_video_analysis
  split <;> rfl

/-- The analysis key list after the upsert: unchanged on an in-place
update, extended by the video id on an insert. -/
theorem upsert_video_analysis_vids (db : CacheDb) (vid : String)
    (res : AnalysisResult) (m : String) (n : Nat) :
    analysis_vids (upsert_video_analysis db vid res m n)
      = if (find_video_analysis db vid).isSome then analysis_vids db
        else analysis_vids db ++ [vid] := by
  unfold upsert_video_analysis
  split
  next hex =>
    unfold analysis_vids
    dsimp only
    rw [List.map_map]
    exact List.map_congr_left (fun a _ => by
      show (if a.video_id == vid then update_video_analysis_row a res m n else a).video_id
        = a.video_id
      split <;> rfl)
  next hex =>
    unfold analysis_vids
    dsimp only
    rw [List.map_append]
    rfl

/-- The cache key list after `_update_cache_info`: untouched without a
stored transcript, unchanged on an in-place update, extended by the video
id on an insert. -/
theorem update_cache_info_cache_vids (md5hex : String → String) (db : CacheDb)
    (vid m : String) (n : Nat) :
    cache_vids (update_cache_info md5hex db vid m n)
      = if (find_transcript db vid).isSome then
          (if (find_analysis_cache db vid).isSome then cache_vids db
           else cache_vids db ++ [vid])
        else cache_vids db := by
  unfold update_cache_info
  cases hft : find_transcript db vid with
  | none =>
    rw [if_neg (by simp)]
  | some tr =>
    rw [if_pos (show (some tr).isSome = true from rfl)]
    dsimp only
    split
    next hc =>
      unfold cache_vids
      dsimp only
      rw [List.map_map]
      exact List.map_congr_left (fun c _ => by
        show (if c.video_id == vid then _ else c).video_id = c.video_id
        split <;> rfl)
    next hc =>
      unfold cache_vids
      dsimp only
      rw [List.map_append]
      rfl

theorem find_transcript_congr {db1 db2 : CacheDb} (vid : String)
    (h : db1.transcripts = db2.transcripts) :
    find_transcript db1 vid = find_transcript db2 vid := by
  unfold find_transcript
  rw [h]

theorem find_analysis_cache_congr {db1 db2 : CacheDb} (vid : String)
    (h : db1.analysis_cache = db2.analysis_cache) :
    find_analysis_cache db1 vid = find_analysis_cache db2 vid := by
  unfold find_analysis_cache
  rw [h]

theorem analysis_vids_congr {db1 db2 : CacheDb}
    (h : db1.video_analyses = db2.video_analyses) :
    analysis_vids db1 = analysis_vids db2 := by
  unfold analysis_vids
  rw [h]

theorem cache_vids_congr {db1 db2 : CacheDb}
    (h : db1.analysis_cache = db2.analysis_cache) :
    cache_vids db1 = cache_vids db2 := by
  unfold cache_vids
  rw [h]

theorem erase_first_analysis_sublist (l : List VideoAnalysisRow) (vid : String) :
    List.Sublist (erase_first_analysis l vid) l := by
  induction l with
  | nil => exact List.Sublist.refl []
  | cons r rs ih =>
    unfold erase_first_analysis
    split
    · exact List.sublist_cons_self r rs
    · exact List.Sublist.cons₂ r ih

theorem mem_erase_first_analysis_of_ne {l : List VideoAnalysisRow} {vid : String}
    {a : VideoAnalysisRow} (hne : a.video_id ≠ vid) (ha : a ∈ l) :
    a ∈ erase_first_analysis l vid := by
  induction l with
  | nil => cases ha
  | cons r rs ih =>
    unfold erase_first_analysis
    split
    next heq =>
      rcases List.mem_cons.1 ha with he | hm
      · exact absurd (by rw [he]; exact beq_iff_eq.mp heq) hne
      · exact hm
    next heq =>
      rcases List.mem_cons.1 ha with he | hm
      · rw [he]; exact List.mem_cons_self r _
      · exact List.mem_cons_of_mem r (ih hm)

/-- With at most one analysis row per video id, erasing the row for `vid`
leaves no row for `vid`. -/
theorem erase_first_analysis_no_vid {l : List VideoAnalysisRow} {vid : String}
    (hno : (l.map (fun a => a.video_id)).Nodup) :
    ∀ a ∈ erase_first_analysis l vid, a.video_id ≠ vid := by
  induction l with
  | nil => intro a ha; cases ha
  | cons r rs ih =>
    rw [List.map_cons, List.nodup_cons] at hno
    intro a ha
    unfold erase_first_analysis at ha
    by_cases hr : (r.video_id == vid) = true
    · rw [if_pos hr] at ha
      intro he
      exact hno.1 (by
        rw [beq_iff_eq.mp hr, ← he]
        exact List.mem_map.2 ⟨a, ha, rfl⟩)
    · rw [if_neg hr] at ha
      rcases List.mem_cons.1 ha with he | hm
      · intro hv
        rw [he] at hv
        exact hr (beq_iff_eq.mpr hv)
      · exact ih hno.2 a hm

theorem erase_fold_sublist (old : List AnalysisCacheRow) :
    ∀ l : List VideoAnalysisRow,
      List.Sublist (old.foldl (fun rows c => erase_first_analysis rows c.video_id) l) l := by
  induction old with
  | nil => intro l; exact List.Sublist.refl l
  | cons c rest ih =>
    intro l
    exact (ih (erase_first_analysis l c.video_id)).trans (erase_first_analysis_sublist l c.video_id)

theorem mem_erase_fold {old : List AnalysisCacheRow} {a : VideoAnalysisRow}
    (hne : a.video_id ∉ old.map (fun c => c.video_id)) :
    ∀ {l : List VideoAnalysisRow}, a ∈ l →
      a ∈ old.foldl (fun rows c => erase_first_analysis rows c.video_id) l := by
  induction old with
  | nil => intro l ha; exact ha
  | cons c rest ih =>
    intro l ha
    rw [List.map_cons] at hne
    refine ih (fun hm => hne (List.mem_cons_of_mem _ hm)) ?_
    exact mem_erase_first_analysis_of_ne
      (fun he => hne (by rw [← he]; exact List.mem_cons_self _ _)) ha

theorem erase_fold_no_vid {old : List AnalysisCacheRow} {vid : String}
    (hv : vid ∈ old.map (fun c => c.video_id)) :
    ∀ {l : List VideoAnalysisRow}, (l.map (fun a => a.video_id)).Nodup →
      ∀ a ∈ old.foldl (fun rows c => erase_first_analysis rows c.video_id) l,
        a.video_id ≠ vid := by
  induction old with
  | nil => exact absurd hv (by simp)
  | cons c rest ih =>
    intro l hno a ha
    rw [List.map_cons, List.mem_cons] at hv
    have hno' : ((erase_first_analysis l c.video_id).map (fun a => a.video_id)).Nodup :=
      ((erase_first_analysis_sublist l c.video_id).map _).nodup hno
    rcases hv with he | hm
    · intro hav
      have hmem : a ∈ erase_first_analysis l c.video_id :=
        (erase_fold_sublist rest (erase_first_analysis l c.video_id)).subset ha
      exact erase_first_analysis_no_vid hno a hmem (hav.trans he)
    · exact ih hm hno' a ha

theorem save_analysis_result_analysis_vids (md5hex : String → String) (db : CacheDb)
    (vid : String) (res : AnalysisResult) (m : String) (n : Nat) :
    analysis_vids (save_analysis_result md5hex db vid res m n)
      = if (find_video_analysis db vid).isSome then analysis_vids db
        else analysis_vids db ++ [vid] := by
  unfold save_analysis_result
  rw [analysis_vids_congr (update_cache_info_video_analyses md5hex _ vid m n)]
  exact upsert_video_analysis_vids db vid res m n

theorem save_analysis_result_cache_vids (md5hex : String → String) (db : CacheDb)
    (vid : String) (res : AnalysisResult) (m : String) (n : Nat) :
    cache_vids (save_analysis_result md5hex db vid res m n)
      = if (find_transcript db vid).isSome then
          (if (find_analysis_cache db vid).isSome then cache_vids db
           else cache_vids db ++ [vid])
        else cache_vids db := by
  unfold save_analysis_result
  rw [update_cache_info_cache_vids]
  rw [find_transcript_congr vid (upsert_video_analysis_transcripts db vid res m n),
      find_analysis_cache_congr vid (upsert_video_analysis_analysis_cache db vid res m n),
      cache_vids_congr (upsert_video_analysis_analysis_cache db vid res m n)]

theorem clean_old_cache_video_analyses (db : CacheDb) (cutoff : Nat) :
    (clean_old_cache db cutoff).1.video_analyses
      = (db.analysis_cache.filter (fun c => c.last_accessed < cutoff)).foldl
          (fun rows c => erase_first_analysis rows c.video_id) db.video_analyses := rfl

theorem clean_old_cache_analysis_cache (db : CacheDb) (cutoff : Nat) :
    (clean_old_cache db cutoff).1.analysis_cache
      = db.analysis_cache.filter (fun c => ¬ c.last_accessed < cutoff) := rfl

/-- A video id survives in the cache index exactly when it was there and
its (unique) row was not stale. -/
theorem clean_cache_vids_mem {db : CacheDb} {cutoff : Nat} {w : String}
    (hnc : (cache_vids db).Nodup) :
    w ∈ cache_vids (clean_old_cache db cutoff).1
      ↔ (w ∈ cache_vids db
         ∧ w ∉ (db.analysis_cache.filter (fun c => c.last_accessed < cutoff)).map
              (fun c => c.video_id)) := by
  unfold cache_vids at hnc ⊢
  rw [clean_old_cache_analysis_cache]
  constructor
  · intro hm
    obtain ⟨c, hc, hcw⟩ := List.mem_map.1 hm
    rw [List.mem_filter] at hc
    obtain ⟨hcmem, hkeep⟩ := hc
    refine ⟨List.mem_map.2 ⟨c, hcmem, hcw⟩, ?_⟩
    intro hold
    obtain ⟨c', hc', hc'w⟩ := List.mem_map.1 hold
    rw [List.mem_filter] at hc'
    have hcc : c = c' := List.inj_on_of_nodup_map hnc hcmem hc'.1 (by rw [hcw, hc'w])
    rw [decide_eq_true_eq] at hkeep
    have hlt := hc'.2
    rw [decide_eq_true_eq] at hlt
    rw [hcc] at hkeep
    exact hkeep hlt
  · rintro ⟨hm, hnold⟩
    obtain ⟨c, hcmem, hcw⟩ := List.mem_map.1 hm
    refine List.mem_map.2 ⟨c, List.mem_filter.2 ⟨hcmem, ?_⟩, hcw⟩
    rw [decide_eq_true_eq]
    intro hlt
    exact hnold (List.mem_map.2 ⟨c, List.mem_filter.2 ⟨hcmem, by
      rw [decide_eq_true_eq]; exact hlt⟩, hcw⟩)

/-- A video id survives in the analysis table exactly when it was there
and was not the video of a stale cache row. -/
theorem clean_analysis_vids_mem {db : CacheDb} {cutoff : Nat} {w : String}
    (hna : (analysis_vids db).Nodup) :
    w ∈ analysis_vids (clean_old_cache db cutoff).1
      ↔ (w ∈ analysis_vids db
         ∧ w ∉ (db.analysis_cache.filter (fun c => c.last_accessed < cutoff)).map
              (fun c => c.video_id)) := by
  unfold analysis_vids at hna ⊢
  rw [clean_old_cache_video_analyses]
  constructor
  · intro hm
    obtain ⟨a, haf, haw⟩ := List.mem_map.1 hm
    have hal : a ∈ db.video_analyses := (erase_fold_sublist _ _).subset haf
    refine ⟨List.mem_map.2 ⟨a, hal, haw⟩, ?_⟩
    intro hold
    exact erase_fold_no_vid hold hna a haf haw
  · rintro ⟨hm, hnold⟩
    obtain ⟨a, hal, haw⟩ := List.mem_map.1 hm
    exact List.mem_map.2 ⟨a, mem_erase_fold (by rw [haw]; exact hnold) hal, haw⟩

theorem cache_db_inv_empty : cache_db_inv CacheDb.empty :=
  ⟨List.nodup_nil, List.nodup_nil, fun vid h =>
    absurd h (by simp [cache_row_exists, find_analysis_cache, CacheDb.empty])⟩

theorem cache_db_iff_empty : cache_db_iff CacheDb.empty := fun vid =>
  ⟨fun h => absurd h (by simp [cache_row_exists, find_analysis_cache, CacheDb.empty]),
   fun h => absurd h (by simp [analysis_row_exists, find_video_analysis, CacheDb.empty])⟩

/-- Every VideoCacheService operation preserves the structural
well-formedness of the store, including the cache-implies-analysis
direction of the invariant. -/
theorem cache_op_inv (md5hex : String → String) (op : CacheOp) {db : CacheDb}
    (h : cache_db_inv db) : cache_db_inv (op.apply md5hex db) := by
  obtain ⟨hna, hnc, hsub⟩ := h
  have hsub' : ∀ w ∈ cache_vids db, w ∈ analysis_vids db := fun w hw =>
    analysis_row_exists_iff_mem.1 (hsub w (cache_row_exists_iff_mem.2 hw))
  cases op with
  | saveVideo vid t now =>
    simp only [CacheOp.apply]
    have e1 := analysis_vids_congr (save_video_data_video_analyses db vid t now)
    have e2 := cache_vids_congr (save_video_data_analysis_cache db vid t now)
    refine ⟨by rw [e1]; exact hna, by rw [e2]; exact hnc, ?_⟩
    intro w hw
    rw [cache_row_exists_iff_mem, e2] at hw
    rw [analysis_row_exists_iff_mem, e1]
    exact hsub' w hw
  | save vid res m now =>
    simp only [CacheOp.apply]
    have ea := save_analysis_result_analysis_vids md5hex db vid res m now
    have ec := save_analysis_result_cache_vids md5hex db vid res m now
    have hmono : ∀ w ∈ analysis_vids db,
        w ∈ analysis_vids (save_analysis_result md5hex db vid res m now) := by
      intro w hw
      rw [ea]
      split
      · exact hw
      · exact List.mem_append_left _ hw
    have hvid : vid ∈ analysis_vids (save_analysis_result md5hex db vid res m now) := by
      rw [ea]
      split
      next hex => exact analysis_row_exists_iff_mem.1 hex
      next hex => exact List.mem_append_right _ (List.mem_singleton.2 rfl)
    refine ⟨?_, ?_, ?_⟩
    · rw [ea]
      split
      next => exact hna
      next hex =>
        have hnot : vid ∉ analysis_vids db := fun hm => hex (analysis_row_exists_iff_mem.2 hm)
        simp [List.nodup_append, hna, hnot]
    · rw [ec]
      split
      next =>
        split
        next => exact hnc
        next hcex =>
          have hnot : vid ∉ cache_vids db := fun hm => hcex (cache_row_exists_iff_mem.2 hm)
          simp [List.nodup_append, hnc, hnot]
      next => exact hnc
    · intro w hw
      rw [cache_row_exists_iff_mem, ec] at hw
      rw [analysis_row_exists_iff_mem]
      by_cases htr : (find_transcript db vid).isSome = true
      · rw [if_pos htr] at hw
        by_cases hce : (find_analysis_cache db vid).isSome = true
        · rw [if_pos hce] at hw
          exact hmono w (hsub' w hw)
        · rw [if_neg hce] at hw
          rcases List.mem_append.1 hw with hm | hm
          · exact hmono w (hsub' w hm)
          · rw [List.mem_singleton] at hm
            rw [hm]
            exact hvid
      · rw [if_neg htr] at hw
        exact hmono w (hsub' w hw)
  | clean cutoff =>
    simp only [CacheOp.apply]
    refine ⟨?_, ?_, ?_⟩
    · show (analysis_vids (clean_old_cache db cutoff).1).Nodup
      unfold analysis_vids
      rw [clean_old_cache_video_analyses]
      exact ((erase_fold_sublist _ _).map _).nodup hna
    · show (cache_vids (clean_old_cache db cutoff).1).Nodup
      unfold cache_vids
      rw [clean_old_cache_analysis_cache]
      exact ((List.filter_sublist _).map _).nodup hnc
    · intro w hw
      rw [cache_row_exists_iff_mem, clean_cache_vids_mem hnc] at hw
      rw [analysis_row_exists_iff_mem, clean_analysis_vids_mem hna]
      exact ⟨hsub' w hw.1, hw.2⟩

/-- Every operation preserves the cache-iff-analysis invariant, provided
a `save` only happens for a video with a stored transcript. -/
theorem cache_op_iff (md5hex : String → String) (op : CacheOp) {db : CacheDb}
    (hinv : cache_db_inv db) (hiff : cache_db_iff db)
    (hcond : (match op with
              | .save vid _ _ _ => (find_transcript db vid).isSome
              | _ => true) = true) :
    cache_db_iff (op.apply md5hex db) := by
  obtain ⟨hna, hnc, _⟩ := hinv
  have hiff' : ∀ w, w ∈ cache_vids db ↔ w ∈ analysis_vids db := fun w => by
    rw [← cache_row_exists_iff_mem, ← analysis_row_exists_iff_mem]
    exact hiff w
  cases op with
  | saveVideo vid t now =>
    intro w
    simp only [CacheOp.apply]
    rw [cache_row_exists_iff_mem, analysis_row_exists_iff_mem,
        cache_vids_congr (save_video_data_analysis_cache db vid t now),
        analysis_vids_congr (save_video_data_video_analyses db vid t now)]
    exact hiff' w
  | save vid res m now =>
    intro w
    simp only [CacheOp.apply]
    rw [cache_row_exists_iff_mem, analysis_row_exists_iff_mem,
        save_analysis_result_cache_vids, save_analysis_result_analysis_vids]
    have htr : (find_transcript db vid).isSome = true := hcond
    rw [if_pos htr]
    by_cases hae : (find_video_analysis db vid).isSome = true
    · have hce : (find_analysis_cache db vid).isSome = true := (hiff vid).2 hae
      rw [if_pos hce, if_pos hae]
      exact hiff' w
    · have hce : ¬ (find_analysis_cache db vid).isSome = true :=
        fun hc => hae ((hiff vid).1 hc)
      rw [if_neg hce, if_neg hae, List.mem_append, List.mem_append]
      exact or_congr (hiff' w) Iff.rfl
  | clean cutoff =>
    intro w
    simp only [CacheOp.apply]
    rw [cache_row_exists_iff_mem, analysis_row_exists_iff_mem,
        clean_cache_vids_mem hnc, clean_analysis_vids_mem hna]
    exact and_congr (hiff' w) Iff.rfl

theorem cache_ops_run_inv (md5hex : String → String) :
    ∀ (ops : List CacheOp) (db : CacheDb),
      cache_db_inv db → cache_db_inv (cache_ops_run md5hex db ops) := by
  intro ops
  induction ops with
  | nil => intro db h; exact h
  | cons op rest ih =>
    intro db h
    exact ih _ (cache_op_inv md5hex op h)

theorem cache_ops_run_iff (md5hex : String → String) :
    ∀ (ops : List CacheOp) (db : CacheDb),
      cache_db_inv db → cache_db_iff db →
      saves_have_transcript md5hex db ops = true →
      cache_db_iff (cache_ops_run md5hex db ops) := by
  intro ops
  induction ops with
  | nil => intro db _ hiff _; exact hiff
  | cons op rest ih =>
    intro db hinv hiff hst
    unfold saves_have_transcript at hst
    rw [Bool.and_eq_true] at hst
    exact ih _ (cache_op_inv md5hex op hinv) (cache_op_iff md5hex op hinv hiff hst.1) hst.2

/-- Counterexample to C2: starting from an empty store, saving an
analysis result for a video with **no stored transcript** creates the
analysis row but `_update_cache_info` returns early, so no cache-index
row exists for it — the claimed equivalence is broken by exactly the
operation the claim says must not break it. -/
theorem C2_counterexample :
    analysis_row_exists (cache_ops_run md5_demo CacheDb.empty
        [.save "v" (ai_disabled_result "t") "gpt-4o-mini" 0]) "v"
    ∧ ¬ cache_row_exists (cache_ops_run md5_demo CacheDb.empty
        [.save "v" (ai_disabled_result "t") "gpt-4o-mini" 0]) "v" :=
  ⟨by decide, by decide⟩

/-- C2 (amended): after any sequence of VideoCacheService operations
starting from the empty store, a cache-index row implies a rich analysis
row for the same video (this direction is unconditional); the full
"cache-index row iff analysis row" equivalence holds provided every
analysis save is performed while its video has a stored transcript —
saving with no stored transcript creates an analysis row without a cache
row (see the counterexample). -/
theorem C2_amended :
    (∀ (md5hex : String → String) (ops : List CacheOp) (vid : String),
        cache_row_exists (cache_ops_run md5hex CacheDb.empty ops) vid →
        analysis_row_exists (cache_ops_run md5hex CacheDb.empty ops) vid)
    ∧ (∀ (md5hex : String → String) (ops : List CacheOp),
        saves_have_transcript md5hex CacheDb.empty ops = true →
        ∀ vid, cache_row_exists (cache_ops_run md5hex CacheDb.empty ops) vid
            ↔ analysis_row_exists (cache_ops_run md5hex CacheDb.empty ops) vid) :=
  ⟨fun md5hex ops vid =>
    (cache_ops_run_inv md5hex ops CacheDb.empty cache_db_inv_empty).2.2 vid,
   fun md5hex ops hst vid =>
    cache_ops_run_iff md5hex ops CacheDb.empty cache_db_inv_empty cache_db_iff_empty hst vid⟩

/-- Witness for C2 (amended): a transcript-first save sequence satisfies
the proviso, and the equivalence holds for its video. -/
theorem C2_amended_witness :
    saves_have_transcript md5_demo CacheDb.empty
        [.saveVideo "v" (some "text") 0,
         .save "v" (ai_disabled_result "t") "gpt-4o-mini" 1] = true
    ∧ (cache_row_exists (cache_ops_run md5_demo CacheDb.empty
          [.saveVideo "v" (some "text") 0,
           .save "v" (ai_disabled_result "t") "gpt-4o-mini" 1]) "v"
        ↔ analysis_row_exists (cache_ops_run md5_demo CacheDb.empty
          [.saveVideo "v" (some "text") 0,
           .save "v" (ai_disabled_result "t") "gpt-4o-mini" 1]) "v") :=
  ⟨by decide,
   C2_amended.2 md5_demo
     [.saveVideo "v" (some "text") 0, .save "v" (ai_disabled_result "t") "gpt-4o-mini" 1]
     (by decide) "v"⟩

/-! ### Transcript resolver (C6, C7) -/

theorem option_none_orElse {α : Type} (f : Unit → Option α) :
    (none : Option α).orElse f = f () := rfl

theorem option_some_orElse {α : Type} (a : α) (f : Unit → Option α) :
    (some a).orElse f = some a := rfl

theorem find_track_eq_some {ts : List TranscriptTrack} {g : Bool} {ll : List String}
    {t : TranscriptTrack} (h : find_track ts g ll = some t) :
    t ∈ ts ∧ t.is_generated = g := by
  induction ll with
  | nil => exact absurd h (by simp [find_track])
  | cons c rest ih =>
    unfold find_track at h
    cases hf : ts.find? (fun u => u.is_generated == g && u.language_code == c) with
    | some u =>
      rw [hf] at h
      cases h
      have hp := List.find?_some hf
      simp only [Bool.and_eq_true, beq_iff_eq] at hp
      exact ⟨List.mem_of_find?_eq_some hf, hp.1⟩
    | none =>
      rw [hf] at h
      exact ih h

/-- When every fetch of every track raises, each priority stage finds
nothing usable. -/
theorem stage_search_none_of_all_error {ts : List TranscriptTrack} {g : Bool}
    (h : ∀ t ∈ ts, ∃ m, t.fetch = .error m) :
    ∀ pr : List (List String), stage_search ts g pr = none := by
  intro pr
  induction pr with
  | nil => rfl
  | cons ll rest ih =>
    unfold stage_search
    cases hf : find_track ts g ll with
    | none => exact ih
    | some t =>
      obtain ⟨m, hm⟩ := h t (find_track_eq_some hf).1
      dsimp only
      rw [hm]
      exact ih

/-- When every fetch raises, the resolver reports "not found". -/
theorem resolve_tracks_none_of_all_error (vid lang : String) {ts : List TranscriptTrack}
    (h : ∀ t ∈ ts, ∃ m, t.fetch = .error m) :
    resolve_tracks vid lang ts = none := by
  unfold resolve_tracks
  rw [stage_search_none_of_all_error h, stage_search_none_of_all_error h]
  cases ts with
  | nil => rfl
  | cons t rest =>
    rw [if_neg (by simp)]
    dsimp only
    cases ha : (t :: rest).find? (fun u => u.is_generated) with
    | some a =>
      obtain ⟨m, hm⟩ := h a (List.mem_of_find?_eq_some ha)
      dsimp only
      rw [hm]
      cases hb : (t :: rest).find? (fun u => !u.is_generated) with
      | some b =>
        obtain ⟨m', hm'⟩ := h b (List.mem_of_find?_eq_some hb)
        dsimp only
        rw [hm']
      | none => rfl
    | none =>
      cases hb : (t :: rest).find? (fun u => !u.is_generated) with
      | some b =>
        obtain ⟨m', hm'⟩ := h b (List.mem_of_find?_eq_some hb)
        dsimp only
        rw [hm']
      | none => rfl

/-- C6: for every transcript-track configuration — transcripts disabled,
enumeration failure, no tracks, any mix of auto-generated and manual
tracks, tracks whose fetch throws a parse error — the resolver returns
`.ok` of either a result or the explicit "not found" value `none`; no
exception escapes past its outer handlers. In particular a disabled
video, an empty track list, and a configuration whose every fetch raises
all yield the explicit "not found". -/
theorem C6_resolver_never_raises :
    (∀ (vid lang : String) (outcome : ListTranscriptsOutcome),
      ∃ o, get_video_transcript vid lang outcome = .ok o)
    ∧ (∀ vid lang, get_video_transcript vid lang .transcriptsDisabled = .ok none)
    ∧ (∀ vid lang msg, get_video_transcript vid lang (.listError msg) = .ok none)
    ∧ (∀ vid lang, get_video_transcript vid lang (.tracks []) = .ok none)
    ∧ (∀ (vid lang : String) (ts : List TranscriptTrack),
        (∀ t ∈ ts, ∃ m, t.fetch = .error m) →
        get_video_transcript vid lang (.tracks ts) = .ok none) := by
  refine ⟨?_, fun vid lang => rfl, fun vid lang msg => rfl, fun vid lang => rfl, ?_⟩
  · intro vid lang outcome
    cases outcome with
    | transcriptsDisabled => exact ⟨none, rfl⟩
    | listError m => exact ⟨none, rfl⟩
    | tracks ts => exact ⟨resolve_tracks vid lang ts, rfl⟩
  · intro vid lang ts h
    unfold get_video_transcript get_video_transcript_body
    dsimp only
    rw [resolve_tracks_none_of_all_error vid lang h]

/-- Witness for C6: a single auto-generated track whose fetch raises an
XML parse error resolves to the explicit "not found". -/
theorem C6_witness :
    get_video_transcript "v" "ko"
      (.tracks [⟨"ko", true, .error "no element found: line 1, column 0"⟩]) = .ok none :=
  C6_resolver_never_raises.2.2.2.2 "v" "ko"
    [⟨"ko", true, .error "no element found: line 1, column 0"⟩]
    (by
      intro t ht
      rw [List.mem_singleton] at ht
      subst ht
      exact ⟨"no element found: line 1, column 0", rfl⟩)

theorem find_track_eq_pick (ts : List TranscriptTrack) (g : Bool) (ll : List String) :
    find_track ts g ll = claim_selection.pick_by_langs ts g ll := by
  induction ll with
  | nil => rfl
  | cons c rest ih =>
    unfold find_track claim_selection.pick_by_langs
    rw [ih]

theorem pick_by_langs_cons (ts : List TranscriptTrack) (g : Bool) (c : String)
    (rest : List String) :
    claim_selection.pick_by_langs ts g (c :: rest)
      = match ts.find? (fun u => u.is_generated == g && u.language_code == c) with
        | some t => some t
        | none => claim_selection.pick_by_langs ts g rest := rfl

theorem pick_by_langs_append (ts : List TranscriptTrack) (g : Bool) (l1 l2 : List String) :
    claim_selection.pick_by_langs ts g (l1 ++ l2)
      = (claim_selection.pick_by_langs ts g l1).orElse
          (fun _ => claim_selection.pick_by_langs ts g l2) := by
  induction l1 with
  | nil => rfl
  | cons c rest ih =>
    rw [show (c :: rest) ++ l2 = c :: (rest ++ l2) from rfl,
        pick_by_langs_cons, pick_by_langs_cons]
    cases hf : ts.find? (fun u => u.is_generated == g && u.language_code == c) with
    | some u => rfl
    | none =>
      dsimp only
      exact ih

/-- When no fetch raises, each stage selects exactly the first track of
its kind in the flattened language order, paired with its fetched text. -/
theorem stage_search_eq_pick_of_ok {ts : List TranscriptTrack} {g : Bool}
    (hok : ∀ t ∈ ts, ∃ es, t.fetch = .ok es) :
    ∀ groups : List (List String),
      stage_search ts g groups
        = (claim_selection.pick_by_langs ts g groups.flatten).map
            (fun t => (t, fetched_text t)) := by
  intro groups
  induction groups with
  | nil => rfl
  | cons ll rest ih =>
    unfold stage_search
    rw [show (ll :: rest).flatten = ll ++ rest.flatten from rfl, pick_by_langs_append]
    cases hf : find_track ts g ll with
    | none =>
      rw [← find_track_eq_pick, hf, option_none_orElse]
      exact ih
    | some t =>
      obtain ⟨es, hes⟩ := hok t (find_track_eq_some hf).1
      rw [← find_track_eq_pick, hf, option_some_orElse]
      dsimp only
      rw [hes]
      simp [fetched_text, hes]

theorem find_track_none_of_lang_not_mem {ts : List TranscriptTrack} {g : Bool}
    {ll : List String} (h : ∀ t ∈ ts, ∀ c ∈ ll, t.language_code ≠ c) :
    find_track ts g ll = none := by
  induction ll with
  | nil => rfl
  | cons c rest ih =>
    unfold find_track
    rw [List.find?_eq_none.2 (fun u hu => by
      simp only [Bool.and_eq_true, beq_iff_eq, not_and]
      intro _
      exact h u hu c (List.mem_cons_self c rest))]
    exact ih (fun t ht c' hc' => h t ht c' (List.mem_cons_of_mem c hc'))

theorem stage_search_none_of_no_lang {ts : List TranscriptTrack} {g : Bool} :
    ∀ groups : List (List String),
      (∀ t ∈ ts, ∀ c ∈ groups.flatten, t.language_code ≠ c) →
      stage_search ts g groups = none := by
  intro groups
  induction groups with
  | nil => intro _; rfl
  | cons ll rest ih =>
    intro h
    unfold stage_search
    rw [find_track_none_of_lang_not_mem (fun t ht c hc =>
      h t ht c (by rw [show (ll :: rest).flatten = ll ++ rest.flatten from rfl]
                   exact List.mem_append_left _ hc))]
    exact ih (fun t ht c hc =>
      h t ht c (by rw [show (ll :: rest).flatten = ll ++ rest.flatten from rfl]
                   exact List.mem_append_right _ hc))

/-- C7: the transcript resolver selects tracks in the claimed order.
First conjunct: when every track fetch succeeds with non-empty text, the
resolved track is exactly `claim_selection` — the first auto-generated
track in the order [preferred language, English, Japanese, Chinese
variants], then the first manually authored track in the same language
order, then (when any track exists) the first available track preferring
auto-generated over manual — and the result carries that track's text,
kind and language. Second conjunct: in the final stage, when no track
matches the priority languages and fetching the first auto-generated
track raises a parse error, the resolver falls back once to the first
manual track. -/
theorem C7_selection_order :
    (∀ (vid lang : String) (ts : List TranscriptTrack),
      (∀ t ∈ ts, ∃ es, t.fetch = .ok es ∧ join_entries es ≠ "") →
      resolve_tracks vid lang ts
        = (claim_selection lang ts).map (fun t =>
            { video_id := vid, transcript_text := fetched_text t
              is_auto_generated := t.is_generated, language := t.language_code }))
    ∧ (∀ (vid lang : String) (ts : List TranscriptTrack) (a mt : TranscriptTrack)
        (es : List String) (m : String),
        (∀ t ∈ ts, t.language_code ∉ ([lang, "en", "ja", "zh", "zh-cn", "zh-tw"] : List String)) →
        ts.find? (fun u => u.is_generated) = some a →
        a.fetch = .error m →
        ts.find? (fun u => !u.is_generated) = some mt →
        mt.fetch = .ok es →
        join_entries es ≠ "" →
        resolve_tracks vid lang ts
          = some { video_id := vid, transcript_text := join_entries es
                   is_auto_generated := false, language := mt.language_code }) := by
  constructor
  · intro vid lang ts hok
    have hok' : ∀ t ∈ ts, ∃ es, t.fetch = .ok es :=
      fun t ht => ⟨(hok t ht).choose, (hok t ht).choose_spec.1⟩
    have htext : ∀ t ∈ ts, fetched_text t ≠ "" := by
      intro t ht
      obtain ⟨es, h1, h2⟩ := hok t ht
      unfold fetched_text
      rw [h1]
      exact h2
    unfold resolve_tracks claim_selection
    rw [stage_search_eq_pick_of_ok hok' (language_priorities lang),
        stage_search_eq_pick_of_ok hok' (language_priorities lang)]
    rw [show (language_priorities lang).flatten
          = [lang, "en", "ja", "zh", "zh-cn", "zh-tw"] from rfl]
    cases hp1 : claim_selection.pick_by_langs ts true [lang, "en", "ja", "zh", "zh-cn", "zh-tw"] with
    | some t =>
      have hmem : t ∈ ts ∧ t.is_generated = true := by
        rw [← find_track_eq_pick] at hp1
        exact find_track_eq_some hp1
      simp only [hp1, Option.map_none', Option.map_some', finalize_transcript,
        htext t hmem.1, hmem.2, if_neg (htext t hmem.1), if_false]
    | none =>
      cases hp2 : claim_selection.pick_by_langs ts false [lang, "en", "ja", "zh", "zh-cn", "zh-tw"] with
      | some mt =>
        have hmem : mt ∈ ts ∧ mt.is_generated = false := by
          rw [← find_track_eq_pick] at hp2
          exact find_track_eq_some hp2
        simp only [hp1, hp2, Option.map_none', Option.map_some', finalize_transcript,
          htext mt hmem.1, hmem.2, if_neg (htext mt hmem.1), if_false]
      | none =>
        cases ts with
        | nil => rfl
        | cons t rest =>
          rw [if_neg (by simp)]
          dsimp only
          cases hfa : (t :: rest).find? (fun u => u.is_generated) with
          | some a =>
            have hamem := List.mem_of_find?_eq_some hfa
            obtain ⟨es, hes⟩ := hok' a hamem
            have hne : join_entries es ≠ "" := by
              have h3 := htext a hamem
              unfold fetched_text at h3
              rw [hes] at h3
              exact h3
            simp only [hp1, hp2, hfa, Option.map_none', Option.map_some', hes,
              finalize_transcript, fetched_text, hne, if_neg hne, if_false]
          | none =>
            cases hfm : (t :: rest).find? (fun u => !u.is_generated) with
            | some b =>
              have hbmem := List.mem_of_find?_eq_some hfm
              obtain ⟨es, hes⟩ := hok' b hbmem
              have hne : join_entries es ≠ "" := by
                have h3 := htext b hbmem
                unfold fetched_text at h3
                rw [hes] at h3
                exact h3
              simp only [hp1, hp2, hfa, hfm, Option.map_none', Option.map_some', hes,
                finalize_transcript, fetched_text, hne, if_neg hne, if_false]
            | none =>
              simp only [hp1, hp2, hfa, hfm, Option.map_none']
  · intro vid lang ts a mt es m hnl ha haerr hm hmok hne
    have hflat : ∀ t ∈ ts, ∀ c ∈ (language_priorities lang).flatten, t.language_code ≠ c := by
      intro t ht c hc heq
      exact hnl t ht (by
        rw [show (language_priorities lang).flatten
            = [lang, "en", "ja", "zh", "zh-cn", "zh-tw"] from rfl] at hc
        rw [heq]
        exact hc)
    unfold resolve_tracks
    rw [stage_search_none_of_no_lang (language_priorities lang) hflat,
        stage_search_none_of_no_lang (language_priorities lang) hflat]
    cases ts with
    | nil => exact absurd ha (by simp)
    | cons t rest =>
      rw [if_neg (by simp)]
      dsimp only
      rw [ha]
      dsimp only
      rw [haerr]
      dsimp only
      rw [hm]
      dsimp only
      rw [hmok]
      unfold finalize_transcript
      dsimp only
      rw [if_neg hne]

/-- Witness for C7: both conjuncts at concrete track configurations — a
manual French and auto German track (none in the priority languages)
resolve to the auto track when fetches succeed, and to the manual track
when the auto fetch raises. -/
theorem C7_witness :
    (resolve_tracks "v" "ko" [⟨"fr", false, .ok ["bonjour"]⟩, ⟨"de", true, .ok ["hallo"]⟩]
      = (claim_selection "ko" [⟨"fr", false, .ok ["bonjour"]⟩, ⟨"de", true, .ok ["hallo"]⟩]).map
          (fun t => { video_id := "v", transcript_text := fetched_text t
                      is_auto_generated := t.is_generated, language := t.language_code }))
    ∧ resolve_tracks "v" "ko" [⟨"fr", false, .ok ["bonjour"]⟩, ⟨"de", true, .error "parse"⟩]
        = some { video_id := "v", transcript_text := join_entries ["bonjour"]
                 is_auto_generated := false, language := "fr" } :=
  ⟨C7_selection_order.1 "v" "ko" [⟨"fr", false, .ok ["bonjour"]⟩, ⟨"de", true, .ok ["hallo"]⟩]
    (by
      intro t ht
      rcases List.mem_cons.1 ht with h | h
      · subst h; exact ⟨["bonjour"], rfl, by decide⟩
      · rw [List.mem_singleton] at h; subst h; exact ⟨["hallo"], rfl, by decide⟩),
   C7_selection_order.2 "v" "ko" [⟨"fr", false, .ok ["bonjour"]⟩, ⟨"de", true, .error "parse"⟩]
    ⟨"de", true, .error "parse"⟩ ⟨"fr", false, .ok ["bonjour"]⟩ ["bonjour"] "parse"
    (by
      intro t ht
      rcases List.mem_cons.1 ht with h | h
      · subst h; decide
      · rw [List.mem_singleton] at h; subst h; decide)
    (by decide) rfl (by decide) rfl (by decide)⟩

/-- C9: On its fallback path (LLM unavailable or response malformed), the
Trend Aggregator reports the arithmetic mean of the input sentiment scores
and a label derived from it: for scores `[0.5, -0.5, 0.0]` the mean `0.0`
and a `"neutral"` label, and for scores `[0.8, 0.6]` the mean `0.7` and a
`"bullish"` label; it returns a result rather than raising for every
input, including the empty analysis list (the empty list short-circuits to
the fixed neutral result). -/
theorem C9_trend_fallback_mean_and_label :
    (∀ (msg : String) (analyses : List TrendInputAnalysis) (keywords : List String) (dr : String),
      analyses ≠ [] →
      (generate_trend_analysis (.failure msg) analyses keywords dr).market_sentiment
        = sentiment_label (avg_sentiment analyses))
    ∧ (avg_sentiment [⟨"", [], [], 1/2⟩, ⟨"", [], [], -(1/2)⟩, ⟨"", [], [], 0⟩] = 0
       ∧ (generate_trend_analysis (.failure "err")
            [⟨"", [], [], 1/2⟩, ⟨"", [], [], -(1/2)⟩, ⟨"", [], [], 0⟩] ["금리"] "최근 7일").market_sentiment
          = "neutral")
    ∧ (avg_sentiment [⟨"", [], [], 4/5⟩, ⟨"", [], [], 3/5⟩] = 7/10
       ∧ (generate_trend_analysis (.failure "err")
            [⟨"", [], [], 4/5⟩, ⟨"", [], [], 3/5⟩] ["금리"] "최근 7일").market_sentiment
          = "bullish")
    ∧ (∀ (llm : TrendLlmOutcome) (keywords : List String) (dr : String),
        generate_trend_analysis llm [] keywords dr = empty_trend_result)
    ∧ empty_trend_result.market_sentiment = "neutral" := by
  refine ⟨?_,
    ⟨by norm_num [avg_sentiment, List.cons_ne_nil],
     by norm_num [generate_trend_analysis, trend_fallback_result, sentiment_label,
                  avg_sentiment, List.cons_ne_nil]⟩,
    ⟨by norm_num [avg_sentiment, List.cons_ne_nil],
     by norm_num [generate_trend_analysis, trend_fallback_result, sentiment_label,
                  avg_sentiment, List.cons_ne_nil]⟩, ?_, rfl⟩
  · intro msg analyses keywords dr h
    cases analyses with
    | nil => exact absurd rfl h
    | cons a rest =>
      simp [generate_trend_analysis, trend_fallback_result]
  · intro llm keywords dr
    cases llm <;> simp [generate_trend_analysis]

/-! ### Per-keyword analysis skipping (C10) -/

theorem analysis_rows_for_video_id {db : CollectorDb} {v : VideoRow}
    {result : KeywordAnalysisOutput} {keywords : List String} :
    ∀ r ∈ analysis_rows_for db v result keywords, r.video_id = v.video_id := by
  intro r hr
  unfold analysis_rows_for at hr
  obtain ⟨kw, -, hmap⟩ := List.mem_filterMap.1 hr
  obtain ⟨krow, -, heq⟩ := Option.map_eq_some'.1 hmap
  rw [← heq]

/-- C10: `analyze_videos` skips any video that already has **some**
`Analysis` row — the existence check filters by video id only, not by
keyword — so for every video with an existing analysis row, running
`analyze_videos` with any keyword list (including keywords never evaluated
against that video) leaves its `Analysis` rows unchanged and performs no
LLM call for it. -/
theorem C10_existing_analysis_skipped (env : CollectorEnv) (keywords : List String) :
    ∀ (videos : List VideoRow) (db : CollectorDb) (vid : String),
      (db.analyses.find? (fun a => a.video_id == vid)).isSome →
      (analyze_videos env keywords videos db).2.2.analyses.filter (fun a => a.video_id == vid)
          = db.analyses.filter (fun a => a.video_id == vid)
      ∧ vid ∉ (analyze_videos env keywords videos db).2.1 := by
  intro videos
  induction videos with
  | nil =>
    intro db vid h
    exact ⟨rfl, by simp [analyze_videos]⟩
  | cons v rest ih =>
    intro db vid h
    unfold analyze_videos
    by_cases hex : (db.analyses.find? (fun a => a.video_id == v.video_id)).isSome = true
    · rw [if_pos hex]
      exact ih db vid h
    · rw [if_neg hex]
      dsimp only
      split
      next htr => exact ih db vid h
      next htr =>
        have hneq : v.video_id ≠ vid := by
          intro he
          exact hex (by rw [he]; exact h)
        have key : ∀ result : KeywordAnalysisOutput,
            (analyze_videos env keywords rest
              { db with analyses := db.analyses ++ analysis_rows_for db v result keywords
              }).2.2.analyses.filter (fun a => a.video_id == vid)
                = db.analyses.filter (fun a => a.video_id == vid)
            ∧ vid ∉ v.video_id :: (analyze_videos env keywords rest
              { db with analyses := db.analyses ++ analysis_rows_for db v result keywords
              }).2.1 := by
          intro result
          have hrows : ∀ r ∈ analysis_rows_for db v result keywords,
              (r.video_id == vid) = false := by
            intro r hr
            rw [beq_eq_false_iff_ne, analysis_rows_for_video_id r hr]
            exact hneq
          obtain ⟨hx, hxm, hpx⟩ := List.find?_isSome.1 h
          have h2 : ((db.analyses ++ analysis_rows_for db v result keywords).find?
              (fun a => a.video_id == vid)).isSome = true :=
            List.find?_isSome.2 ⟨hx, List.mem_append_left _ hxm, hpx⟩
          have hrec := ih
            { db with analyses := db.analyses ++ analysis_rows_for db v result keywords } vid h2
          refine ⟨?_, ?_⟩
          · rw [hrec.1]
            show (db.analyses ++ analysis_rows_for db v result keywords).filter _ = _
            rw [List.filter_append,
              show (analysis_rows_for db v result keywords).filter
                  (fun a => a.video_id == vid) = [] from
                List.filter_eq_nil_iff.2 (fun r hr => by
                  rw [hrows r hr]; exact Bool.false_ne_true),
              List.append_nil]
          · intro hmem
            rcases List.mem_cons.1 hmem with he | hin
            · exact hneq he.symm
            · exact hrec.2 hin
        exact ⟨(key _).1, fun hmem => (key _).2 hmem⟩

/-- Witness for C10: a store holding one analysis row for video `v0`
under keyword id 0; analyzing `v0` again with a fresh keyword list leaves
its rows unchanged and performs no LLM call. -/
theorem C10_witness :
    (analyze_videos demo_env ["다른키워드"] [demo_video_v0] demo_db_c10).2.2.analyses.filter
        (fun a => a.video_id == "v0")
      = demo_db_c10.analyses.filter (fun a => a.video_id == "v0")
    ∧ "v0" ∉ (analyze_videos demo_env ["다른키워드"] [demo_video_v0] demo_db_c10).2.1 :=
  C10_existing_analysis_skipped demo_env ["다른키워드"] [demo_video_v0] demo_db_c10 "v0"
    (by decide)

/-! ### Pipeline re-run idempotence (C8) -/

theorem find_isSome_append {α : Type} (p : α → Bool) :
    ∀ (l e : List α), (l.find? p).isSome = true → ((l ++ e).find? p).isSome = true := by
  intro l e
  induction l with
  | nil => intro h; exact absurd h (by simp)
  | cons a t ih =>
    intro h
    by_cases hp : p a = true
    · rw [List.cons_append, List.find?_cons_of_pos _ hp]; rfl
    · rw [List.find?_cons_of_neg _ hp] at h
      rw [List.cons_append, List.find?_cons_of_neg _ hp]
      exact ih h

theorem find_append_singleton {α : Type} (p : α → Bool) (l : List α) (a : α) (h : p a = true) :
    ((l ++ [a]).find? p).isSome = true := by
  induction l with
  | nil => rw [List.nil_append, List.find?_cons_of_pos _ h]; rfl
  | cons b t ih =>
    by_cases hp : p b = true
    · rw [List.cons_append, List.find?_cons_of_pos _ hp]; rfl
    · rw [List.cons_append, List.find?_cons_of_neg _ hp]; exact ih

theorem append_chain {α : Type} {a b c : List α} (h1 : ∃ e, b = a ++ e) (h2 : ∃ e, c = b ++ e) :
    ∃ e, c = a ++ e := by
  obtain ⟨e1, rfl⟩ := h1
  obtain ⟨e2, rfl⟩ := h2
  exact ⟨e1 ++ e2, List.append_assoc _ _ _⟩

theorem db_extends_rfl (db : CollectorDb) : db_extends db db :=
  ⟨⟨[], by simp⟩, ⟨[], by simp⟩, ⟨[], by simp⟩, ⟨[], by simp⟩⟩

theorem db_extends_trans {d1 d2 d3 : CollectorDb} (h1 : db_extends d1 d2)
    (h2 : db_extends d2 d3) : db_extends d1 d3 :=
  ⟨append_chain h1.1 h2.1, append_chain h1.2.1 h2.2.1,
   append_chain h1.2.2.1 h2.2.2.1, append_chain h1.2.2.2 h2.2.2.2⟩

theorem channels_from_env_trans {env : CollectorEnv} {d1 d2 d3 : CollectorDb}
    (h1 : channels_from_env env d1 d2) (h2 : channels_from_env env d2 d3) :
    channels_from_env env d1 d3 :=
  fun c hc => (h2 c hc).elim (fun hm => h1 c hm) Or.inr

theorem find_channel_row_mono {db db' : CollectorDb} (h : db_extends db db') {cid : String}
    (hs : (find_channel_row db cid).isSome = true) : (find_channel_row db' cid).isSome = true := by
  obtain ⟨e, he⟩ := h.1
  unfold find_channel_row at hs ⊢
  rw [he]
  exact find_isSome_append _ _ _ hs

theorem find_video_row_mono {db db' : CollectorDb} (h : db_extends db db') {vid : String}
    (hs : (find_video_row db vid).isSome = true) : (find_video_row db' vid).isSome = true := by
  obtain ⟨e, he⟩ := h.2.1
  unfold find_video_row at hs ⊢
  rw [he]
  exact find_isSome_append _ _ _ hs

theorem find_keyword_row_mono {db db' : CollectorDb} (h : db_extends db db') {kw : String}
    (hs : (find_keyword_row db kw).isSome = true) : (find_keyword_row db' kw).isSome = true := by
  obtain ⟨e, he⟩ := h.2.2.2
  unfold find_keyword_row at hs ⊢
  rw [he]
  exact find_isSome_append _ _ _ hs

/-- A channel row never appears for a channel the environment cannot
serve: only `add_channel` inserts channel rows, after a successful
metadata fetch. -/
theorem channel_none_stable {env : CollectorEnv} {db db' : CollectorDb} {cid : String}
    (hcf : channels_from_env env db db')
    (hn : find_channel_row db cid = none)
    (hd : (env.channel_details cid).isSome = false) :
    find_channel_row db' cid = none := by
  unfold find_channel_row at hn ⊢
  rw [List.find?_eq_none] at hn ⊢
  intro ch hch
  rcases hcf ch hch with hm | hdet
  · exact hn ch hm
  · intro hbeq
    rw [beq_iff_eq] at hbeq
    rw [hbeq] at hdet
    rw [hdet] at hd
    exact Bool.noConfusion hd

theorem add_channel_of_found (env : CollectorEnv) (db : CollectorDb) (cid : String)
    (c : ChannelRow) (hf : find_channel_row db cid = some c) :
    add_channel env db cid = (some c, db) := by
  unfold add_channel
  rw [hf]

theorem add_channel_of_new (env : CollectorEnv) (db : CollectorDb) (cid : String)
    (cd : ChannelData) (hf : find_channel_row db cid = none)
    (hd : env.channel_details cid = some cd) :
    add_channel env db cid
      = (some ⟨cid, cd.channel_name, cd.channel_url, cd.description,
            cd.subscriber_count, cd.video_count⟩,
         { db with channels := db.channels
            ++ [⟨cid, cd.channel_name, cd.channel_url, cd.description,
                 cd.subscriber_count, cd.video_count⟩] }) := by
  unfold add_channel
  rw [hf, hd]

theorem add_channel_of_unavailable (env : CollectorEnv) (db : CollectorDb) (cid : String)
    (hf : find_channel_row db cid = none) (hd : env.channel_details cid = none) :
    add_channel env db cid = (none, db) := by
  unfold add_channel
  rw [hf, hd]

theorem add_channel_step (env : CollectorEnv) (db : CollectorDb) (cid : String) :
    db_extends db (add_channel env db cid).2
    ∧ channels_from_env env db (add_channel env db cid).2 := by
  cases hf : find_channel_row db cid with
  | some c =>
    rw [add_channel_of_found env db cid c hf]
    exact ⟨db_extends_rfl db, fun c hc => Or.inl hc⟩
  | none =>
    cases hd : env.channel_details cid with
    | none =>
      rw [add_channel_of_unavailable env db cid hf hd]
      exact ⟨db_extends_rfl db, fun c hc => Or.inl hc⟩
    | some cd =>
      rw [add_channel_of_new env db cid cd hf hd]
      refine ⟨⟨⟨[_], rfl⟩, ⟨[], by simp⟩, ⟨[], by simp⟩, ⟨[], by simp⟩⟩, ?_⟩
      intro c hc
      rcases List.mem_append.1 hc with hm | hm
      · exact Or.inl hm
      · rw [List.mem_singleton] at hm
        subst hm
        right
        show (env.channel_details cid).isSome = true
        rw [hd]
        rfl

theorem add_keywords_step (env : CollectorEnv) (cat : String) :
    ∀ (l : List String) (db : CollectorDb),
      db_extends db (add_keywords db l cat)
      ∧ channels_from_env env db (add_keywords db l cat) := by
  intro l
  induction l with
  | nil => intro db; exact ⟨db_extends_rfl db, fun c hc => Or.inl hc⟩
  | cons kw rest ih =>
    intro db
    have hstep : db_extends db (if (find_keyword_row db kw).isSome then db
          else { db with keywords := db.keywords
            ++ [{ id := db.keywords.length, keyword := kw, category := cat }] })
        ∧ channels_from_env env db (if (find_keyword_row db kw).isSome then db
          else { db with keywords := db.keywords
            ++ [{ id := db.keywords.length, keyword := kw, category := cat }] }) := by
      split
      · exact ⟨db_extends_rfl db, fun c hc => Or.inl hc⟩
      · exact ⟨⟨⟨[], by simp⟩, ⟨[], by simp⟩, ⟨[], by simp⟩, ⟨[_], rfl⟩⟩,
          fun c hc => Or.inl hc⟩
    have hrec := ih (if (find_keyword_row db kw).isSome then db
      else { db with keywords := db.keywords
        ++ [{ id := db.keywords.length, keyword := kw, category := cat }] })
    exact ⟨db_extends_trans hstep.1 hrec.1, channels_from_env_trans hstep.2 hrec.2⟩

theorem collect_videos_loop_step (env : CollectorEnv) (cid : String) :
    ∀ (l : List VideoData) (db : CollectorDb),
      db_extends db (collect_videos_loop cid l db).2
      ∧ channels_from_env env db (collect_videos_loop cid l db).2 := by
  intro l
  induction l with
  | nil => intro db; exact ⟨db_extends_rfl db, fun c hc => Or.inl hc⟩
  | cons vd rest ih =>
    intro db
    unfold collect_videos_loop
    split
    · exact ih db
    · dsimp only
      refine ⟨db_extends_trans ?_ (ih _).1, channels_from_env_trans ?_ (ih _).2⟩
      · exact ⟨⟨[], by simp⟩, ⟨[_], rfl⟩, ⟨[], by simp⟩, ⟨[], by simp⟩⟩
      · exact fun c hc => Or.inl hc

theorem collect_keyword_videos_loop_step (env : CollectorEnv) :
    ∀ (l : List VideoData) (db : CollectorDb),
      db_extends db (collect_keyword_videos_loop env l db).2
      ∧ channels_from_env env db (collect_keyword_videos_loop env l db).2 := by
  intro l
  induction l with
  | nil => intro db; exact ⟨db_extends_rfl db, fun c hc => Or.inl hc⟩
  | cons vd rest ih =>
    intro db
    unfold collect_keyword_videos_loop
    split
    · exact ih db
    · dsimp only
      have hch : db_extends db (if (find_channel_row db vd.channel_id).isSome then db
            else (add_channel env db vd.channel_id).2)
          ∧ channels_from_env env db (if (find_channel_row db vd.channel_id).isSome then db
            else (add_channel env db vd.channel_id).2) := by
        split
        · exact ⟨db_extends_rfl db, fun c hc => Or.inl hc⟩
        · exact add_channel_step env db vd.channel_id
      refine ⟨db_extends_trans hch.1 (db_extends_trans ?_ (ih _).1),
        channels_from_env_trans hch.2 (channels_from_env_trans ?_ (ih _).2)⟩
      · exact ⟨⟨[], by simp⟩, ⟨[_], rfl⟩, ⟨[], by simp⟩, ⟨[], by simp⟩⟩
      · exact fun c hc => Or.inl hc

theorem collect_video_transcripts_step (env : CollectorEnv) (now : Nat) :
    ∀ (l : List VideoRow) (db : CollectorDb),
      db_extends db (collect_video_transcripts env now l db).2
      ∧ channels_from_env env db (collect_video_transcripts env now l db).2 := by
  intro l
  induction l with
  | nil => intro db; exact ⟨db_extends_rfl db, fun c hc => Or.inl hc⟩
  | cons v rest ih =>
    intro db
    unfold collect_video_transcripts
    split
    · exact ih db
    · split
      · exact ih db
      · dsimp only
        refine ⟨db_extends_trans ?_ (ih _).1, channels_from_env_trans ?_ (ih _).2⟩
        · exact ⟨⟨[], by simp⟩, ⟨[], by simp⟩, ⟨[_], rfl⟩, ⟨[], by simp⟩⟩
        · exact fun c hc => Or.inl hc

theorem analyze_videos_step (env : CollectorEnv) (kws : List String) :
    ∀ (l : List VideoRow) (db : CollectorDb),
      db_extends db (analyze_videos env kws l db).2.2
      ∧ channels_from_env env db (analyze_videos env kws l db).2.2 := by
  intro l
  induction l with
  | nil => intro db; exact ⟨db_extends_rfl db, fun c hc => Or.inl hc⟩
  | cons v rest ih =>
    intro db
    unfold analyze_videos
    split
    · exact ih db
    · dsimp only
      split
      · exact ih db
      · dsimp only
        refine ⟨db_extends_trans ?_ (ih _).1, channels_from_env_trans ?_ (ih _).2⟩
        · exact ⟨⟨[], by simp⟩, ⟨[], by simp⟩, ⟨[], by simp⟩, ⟨[], by simp⟩⟩
        · exact fun c hc => Or.inl hc

theorem run_channels_loop_step (env : CollectorEnv) :
    ∀ (cids : List String) (db : CollectorDb),
      db_extends db (run_channels_loop env cids db).2
      ∧ channels_from_env env db (run_channels_loop env cids db).2 := by
  intro cids
  induction cids with
  | nil => intro db; exact ⟨db_extends_rfl db, fun c hc => Or.inl hc⟩
  | cons c rest ih =>
    intro db
    unfold run_channels_loop
    dsimp only
    split
    · dsimp only
      exact ⟨db_extends_trans (add_channel_step env db c).1
          (db_extends_trans
            (collect_videos_loop_step env c (env.channel_videos c) (add_channel env db c).2).1
            (ih _).1),
        channels_from_env_trans (add_channel_step env db c).2
          (channels_from_env_trans
            (collect_videos_loop_step env c (env.channel_videos c) (add_channel env db c).2).2
            (ih _).2)⟩
    · exact ⟨db_extends_trans (add_channel_step env db c).1 (ih _).1,
        channels_from_env_trans (add_channel_step env db c).2 (ih _).2⟩

theorem run_keywords_loop_step (env : CollectorEnv) :
    ∀ (kws : List String) (db : CollectorDb),
      db_extends db (run_keywords_loop env kws db).2
      ∧ channels_from_env env db (run_keywords_loop env kws db).2 := by
  intro kws
  induction kws with
  | nil => intro db; exact ⟨db_extends_rfl db, fun c hc => Or.inl hc⟩
  | cons k rest ih =>
    intro db
    unfold run_keywords_loop
    dsimp only
    exact ⟨db_extends_trans
        (collect_keyword_videos_loop_step env (env.keyword_videos k) db).1 (ih _).1,
      channels_from_env_trans
        (collect_keyword_videos_loop_step env (env.keyword_videos k) db).2 (ih _).2⟩

theorem channel_done_mono {env : CollectorEnv} {db db' : CollectorDb} {cid : String}
    (hx : db_extends db db') (hcf : channels_from_env env db db')
    (h : channel_done env db cid) : channel_done env db' cid := by
  obtain ⟨h1, h2⟩ := h
  constructor
  · intro hd
    exact find_channel_row_mono hx (h1 hd)
  · intro hs vd hvd
    cases hf : find_channel_row db cid with
    | some ch => exact find_video_row_mono hx (h2 (by rw [hf]; rfl) vd hvd)
    | none =>
      cases hd : env.channel_details cid with
      | some cd =>
        have hrow := h1 (by rw [hd]; rfl)
        rw [hf] at hrow
        exact absurd hrow (by simp)
      | none =>
        have hn : find_channel_row db' cid = none :=
          channel_none_stable hcf hf (by rw [hd]; rfl)
        rw [hn] at hs
        exact absurd hs (by simp)

theorem collect_videos_loop_present (env : CollectorEnv) (cid : String) :
    ∀ (l : List VideoData) (db : CollectorDb), ∀ vd ∈ l,
      (find_video_row (collect_videos_loop cid l db).2 vd.video_id).isSome = true := by
  intro l
  induction l with
  | nil => intro db vd h; exact absurd h (List.not_mem_nil _)
  | cons v rest ih =>
    intro db vd hmem
    unfold collect_videos_loop
    split
    next hv =>
      rcases List.mem_cons.1 hmem with heq | hr
      · subst heq
        exact find_video_row_mono (collect_videos_loop_step env cid rest db).1 hv
      · exact ih db vd hr
    next hv =>
      dsimp only
      rcases List.mem_cons.1 hmem with heq | hr
      · subst heq
        refine find_video_row_mono (collect_videos_loop_step env cid rest _).1 ?_
        unfold find_video_row
        dsimp only
        exact find_append_singleton _ _ _ (beq_self_eq_true _)
      · exact ih _ vd hr

theorem collect_keyword_videos_loop_present (env : CollectorEnv) :
    ∀ (l : List VideoData) (db : CollectorDb), ∀ vd ∈ l,
      (find_video_row (collect_keyword_videos_loop env l db).2 vd.video_id).isSome = true := by
  intro l
  induction l with
  | nil => intro db vd h; exact absurd h (List.not_mem_nil _)
  | cons v rest ih =>
    intro db vd hmem
    unfold collect_keyword_videos_loop
    split
    next hv =>
      rcases List.mem_cons.1 hmem with heq | hr
      · subst heq
        exact find_video_row_mono (collect_keyword_videos_loop_step env rest db).1 hv
      · exact ih db vd hr
    next hv =>
      dsimp only
      rcases List.mem_cons.1 hmem with heq | hr
      · subst heq
        refine find_video_row_mono (collect_keyword_videos_loop_step env rest _).1 ?_
        unfold find_video_row
        dsimp only
        exact find_append_singleton _ _ _ (beq_self_eq_true _)
      · exact ih _ vd hr

theorem add_keywords_present (env : CollectorEnv) (cat : String) :
    ∀ (l : List String) (db : CollectorDb), ∀ kw ∈ l,
      (find_keyword_row (add_keywords db l cat) kw).isSome = true := by
  intro l
  induction l with
  | nil => intro db kw h; exact absurd h (List.not_mem_nil _)
  | cons k rest ih =>
    intro db kw hmem
    unfold add_keywords
    dsimp only
    rcases List.mem_cons.1 hmem with heq | hr
    · subst heq
      refine find_keyword_row_mono (add_keywords_step env cat rest _).1 ?_
      split
      next h => exact h
      next h =>
        unfold find_keyword_row
        dsimp only
        exact find_append_singleton _ _ _ (beq_self_eq_true _)
    · exact ih _ kw hr

theorem run_channels_loop_establishes (env : CollectorEnv) :
    ∀ (cids : List String) (db : CollectorDb), ∀ cid ∈ cids,
      channel_done env (run_channels_loop env cids db).2 cid := by
  intro cids
  induction cids with
  | nil => intro db cid h; exact absurd h (List.not_mem_nil _)
  | cons c rest ih =>
    intro db cid hmem
    unfold run_channels_loop
    dsimp only
    split
    next hac =>
      dsimp only
      rcases List.mem_cons.1 hmem with heq | hrest
      · subst heq
        have hrow : (find_channel_row (add_channel env db cid).2 cid).isSome = true := by
          cases hf : find_channel_row db cid with
          | some ch =>
            rw [add_channel_of_found env db cid ch hf]
            show (find_channel_row db cid).isSome = true
            rw [hf]
            rfl
          | none =>
            cases hd : env.channel_details cid with
            | none =>
              rw [add_channel_of_unavailable env db cid hf hd] at hac
              exact absurd hac (by simp)
            | some cd =>
              rw [add_channel_of_new env db cid cd hf hd]
              unfold find_channel_row
              dsimp only
              exact find_append_singleton _ _ _ (beq_self_eq_true _)
        have hdone : channel_done env (collect_channel_videos env cid (add_channel env db cid).2).2 cid := by
          constructor
          · intro _
            exact find_channel_row_mono
              (collect_videos_loop_step env cid (env.channel_videos cid) (add_channel env db cid).2).1 hrow
          · intro _ vd hvd
            exact collect_videos_loop_present env cid (env.channel_videos cid)
              (add_channel env db cid).2 vd hvd
        exact channel_done_mono
          (run_channels_loop_step env rest (collect_channel_videos env cid (add_channel env db cid).2).2).1
          (run_channels_loop_step env rest (collect_channel_videos env cid (add_channel env db cid).2).2).2
          hdone
      · exact ih _ cid hrest
    next hac =>
      rcases List.mem_cons.1 hmem with heq | hrest
      · subst heq
        have hf : find_channel_row db cid = none := by
          cases hf : find_channel_row db cid with
          | some ch =>
            rw [add_channel_of_found env db cid ch hf] at hac
            exact absurd rfl hac
          | none => rfl
        have hd : env.channel_details cid = none := by
          cases hd : env.channel_details cid with
          | some cd =>
            rw [add_channel_of_new env db cid cd hf hd] at hac
            exact absurd rfl hac
          | none => rfl
        rw [add_channel_of_unavailable env db cid hf hd]
        dsimp only
        have hdone : channel_done env db cid := by
          constructor
          · intro hds
            rw [hd] at hds
            exact absurd hds (by simp)
          · intro hcs
            rw [hf] at hcs
            exact absurd hcs (by simp)
        exact channel_done_mono (run_channels_loop_step env rest db).1
          (run_channels_loop_step env rest db).2 hdone
      · exact ih _ cid hrest

theorem run_keywords_loop_establishes (env : CollectorEnv) :
    ∀ (kws : List String) (db : CollectorDb), ∀ kw ∈ kws, ∀ vd ∈ env.keyword_videos kw,
      (find_video_row (run_keywords_loop env kws db).2 vd.video_id).isSome = true := by
  intro kws
  induction kws with
  | nil => intro db kw h; exact absurd h (List.not_mem_nil _)
  | cons k rest ih =>
    intro db kw hmem vd hvd
    unfold run_keywords_loop
    dsimp only
    rcases List.mem_cons.1 hmem with heq | hr
    · subst heq
      exact find_video_row_mono
        (run_keywords_loop_step env rest (collect_keyword_videos env kw db).2).1
        (collect_keyword_videos_loop_present env (env.keyword_videos kw) db vd hvd)
    · exact ih (collect_keyword_videos env k db).2 kw hr vd hvd

theorem add_keywords_noop (cat : String) :
    ∀ (l : List String) (db : CollectorDb),
      (∀ kw ∈ l, (find_keyword_row db kw).isSome = true) →
      add_keywords db l cat = db := by
  intro l
  induction l with
  | nil => intro db _; rfl
  | cons k rest ih =>
    intro db h
    unfold add_keywords
    dsimp only
    rw [if_pos (h k (List.mem_cons_self _ _))]
    exact ih db (fun kw hkw => h kw (List.mem_cons_of_mem _ hkw))

theorem collect_videos_loop_noop (cid : String) :
    ∀ (l : List VideoData) (db : CollectorDb),
      (∀ vd ∈ l, (find_video_row db vd.video_id).isSome = true) →
      collect_videos_loop cid l db = ([], db) := by
  intro l
  induction l with
  | nil => intro db _; rfl
  | cons vd rest ih =>
    intro db h
    unfold collect_videos_loop
    rw [if_pos (h vd (List.mem_cons_self _ _))]
    exact ih db (fun w hw => h w (List.mem_cons_of_mem _ hw))

theorem collect_keyword_videos_loop_noop (env : CollectorEnv) :
    ∀ (l : List VideoData) (db : CollectorDb),
      (∀ vd ∈ l, (find_video_row db vd.video_id).isSome = true) →
      collect_keyword_videos_loop env l db = ([], db) := by
  intro l
  induction l with
  | nil => intro db _; rfl
  | cons vd rest ih =>
    intro db h
    unfold collect_keyword_videos_loop
    rw [if_pos (h vd (List.mem_cons_self _ _))]
    exact ih db (fun w hw => h w (List.mem_cons_of_mem _ hw))

theorem run_channels_loop_noop (env : CollectorEnv) :
    ∀ (cids : List String) (db : CollectorDb),
      (∀ cid ∈ cids, channel_done env db cid) →
      run_channels_loop env cids db = ([], db) := by
  intro cids
  induction cids with
  | nil => intro db _; rfl
  | cons c rest ih =>
    intro db h
    obtain ⟨h1, h2⟩ := h c (List.mem_cons_self _ _)
    unfold run_channels_loop
    dsimp only
    cases hf : find_channel_row db c with
    | some ch =>
      rw [add_channel_of_found env db c ch hf]
      rw [if_pos (show ((some ch, db) : Option ChannelRow × CollectorDb).1.isSome = true from rfl)]
      have hcol : collect_channel_videos env c db = ([], db) :=
        collect_videos_loop_noop c (env.channel_videos c) db (h2 (by rw [hf]; rfl))
      rw [hcol]
      dsimp only
      rw [ih db (fun x hx => h x (List.mem_cons_of_mem _ hx))]
      rfl
    | none =>
      cases hd : env.channel_details c with
      | some cd =>
        have hrow := h1 (by rw [hd]; rfl)
        rw [hf] at hrow
        exact absurd hrow (by simp)
      | none =>
        rw [add_channel_of_unavailable env db c hf hd]
        rw [if_neg (show ¬ ((none, db) : Option ChannelRow × CollectorDb).1.isSome = true by simp)]
        exact ih db (fun x hx => h x (List.mem_cons_of_mem _ hx))

theorem run_keywords_loop_noop (env : CollectorEnv) :
    ∀ (kws : List String) (db : CollectorDb),
      (∀ kw ∈ kws, ∀ vd ∈ env.keyword_videos kw, (find_video_row db vd.video_id).isSome = true) →
      run_keywords_loop env kws db = ([], db) := by
  intro kws
  induction kws with
  | nil => intro db _; rfl
  | cons k rest ih =>
    intro db h
    unfold run_keywords_loop
    dsimp only
    have hcol : collect_keyword_videos env k db = ([], db) :=
      collect_keyword_videos_loop_noop env (env.keyword_videos k) db (h k (List.mem_cons_self _ _))
    rw [hcol]
    dsimp only
    rw [ih db (fun kw hkw => h kw (List.mem_cons_of_mem _ hkw))]
    rfl

/-- The state after one full collection run: every requested keyword is
registered, every available requested channel is registered with all its
recent videos stored, and every keyword-search video is stored. -/
theorem run_daily_facts (env : CollectorEnv) (cids kws : List String) (cat : String)
    (db : CollectorDb) (now : Nat) :
    (∀ kw ∈ kws,
        (find_keyword_row (run_daily_collection env cids kws cat db now).1 kw).isSome = true)
    ∧ (∀ cid ∈ cids, channel_done env (run_daily_collection env cids kws cat db now).1 cid)
    ∧ (∀ kw ∈ kws, ∀ vd ∈ env.keyword_videos kw,
        (find_video_row (run_daily_collection env cids kws cat db now).1 vd.video_id).isSome = true) := by
  have e_rc := run_channels_loop_step env cids (add_keywords db kws cat)
  have e_rk := run_keywords_loop_step env kws
    (run_channels_loop env cids (add_keywords db kws cat)).2
  have e_rt := collect_video_transcripts_step env now
    (dict_dedup_by_id ((run_channels_loop env cids (add_keywords db kws cat)).1
      ++ (run_keywords_loop env kws (run_channels_loop env cids (add_keywords db kws cat)).2).1))
    (run_keywords_loop env kws (run_channels_loop env cids (add_keywords db kws cat)).2).2
  have e_ra := analyze_videos_step env kws
    ((dict_dedup_by_id ((run_channels_loop env cids (add_keywords db kws cat)).1
        ++ (run_keywords_loop env kws (run_channels_loop env cids (add_keywords db kws cat)).2).1)).filter
      (fun v => (find_transcript_row
          (collect_video_transcripts env now
            (dict_dedup_by_id ((run_channels_loop env cids (add_keywords db kws cat)).1
              ++ (run_keywords_loop env kws (run_channels_loop env cids (add_keywords db kws cat)).2).1))
            (run_keywords_loop env kws (run_channels_loop env cids (add_keywords db kws cat)).2).2).2
          v.video_id).isSome))
    (collect_video_transcripts env now
      (dict_dedup_by_id ((run_channels_loop env cids (add_keywords db kws cat)).1
        ++ (run_keywords_loop env kws (run_channels_loop env cids (add_keywords db kws cat)).2).1))
      (run_keywords_loop env kws (run_channels_loop env cids (add_keywords db kws cat)).2).2).2
  refine ⟨?_, ?_, ?_⟩
  · intro kw hkw
    exact find_keyword_row_mono
      (db_extends_trans e_rc.1 (db_extends_trans e_rk.1 (db_extends_trans e_rt.1 e_ra.1)))
      (add_keywords_present env cat kws db kw hkw)
  · intro cid hcid
    exact channel_done_mono
      (db_extends_trans e_rk.1 (db_extends_trans e_rt.1 e_ra.1))
      (channels_from_env_trans e_rk.2 (channels_from_env_trans e_rt.2 e_ra.2))
      (run_channels_loop_establishes env cids (add_keywords db kws cat) cid hcid)
  · intro kw hkw vd hvd
    exact find_video_row_mono (db_extends_trans e_rt.1 e_ra.1)
      (run_keywords_loop_establishes env kws
        (run_channels_loop env cids (add_keywords db kws cat)).2 kw hkw vd hvd)

/-- With an unchanged environment, a second daily collection run is a
complete no-op on the store: every keyword, channel and video is found
and skipped, no new video is collected, and the transcript and analysis
phases receive an empty work list. -/
theorem run_daily_collection_rerun (env : CollectorEnv) (cids kws : List String)
    (cat : String) (db : CollectorDb) (now : Nat) :
    (run_daily_collection env cids kws cat
        (run_daily_collection env cids kws cat db now).1 now).1
      = (run_daily_collection env cids kws cat db now).1 := by
  obtain ⟨f1, f2, f3⟩ := run_daily_facts env cids kws cat db now
  generalize hdb1 : (run_daily_collection env cids kws cat db now).1 = db1 at f1 f2 f3 ⊢
  unfold run_daily_collection
  dsimp only
  rw [add_keywords_noop cat kws db1 f1]
  rw [run_channels_loop_noop env cids db1 f2]
  dsimp only
  rw [run_keywords_loop_noop env kws db1 f3]
  rfl

/-- C8: running the Ingestion Pipeline's daily collection twice in
succession with identical channel ids, keywords and category against the
same external environment (no new upstream videos, no time advance)
leaves the Video, Transcript and Analysis row counts equal to the counts
after the first run: every video, transcript and analysis already present
is skipped, not duplicated or overwritten. -/
theorem C8_second_run_counts_unchanged (env : CollectorEnv) (cids kws : List String)
    (cat : String) (db : CollectorDb) (now : Nat) :
    ((run_daily_collection env cids kws cat
          (run_daily_collection env cids kws cat db now).1 now).1.videos.length
        = (run_daily_collection env cids kws cat db now).1.videos.length)
    ∧ ((run_daily_collection env cids kws cat
          (run_daily_collection env cids kws cat db now).1 now).1.transcripts.length
        = (run_daily_collection env cids kws cat db now).1.transcripts.length)
    ∧ ((run_daily_collection env cids kws cat
          (run_daily_collection env cids kws cat db now).1 now).1.analyses.length
        = (run_daily_collection env cids kws cat db now).1.analyses.length) := by
  rw [run_daily_collection_rerun]
  exact ⟨rfl, rfl, rfl⟩

/-- Witness for C9: the general fallback-label component applied at a
concrete one-element input. -/
theorem C9_witness :
    ([(⟨"s", ["i"], ["e"], 1⟩ : TrendInputAnalysis)] ≠ []
      ∧ (generate_trend_analysis (.failure "boom") [⟨"s", ["i"], ["e"], 1⟩] ["k"] "d").market_sentiment
          = sentiment_label (avg_sentiment [⟨"s", ["i"], ["e"], 1⟩])) :=
  ⟨by simp, C9_trend_fallback_mean_and_label.1 "boom" [⟨"s", ["i"], ["e"], 1⟩] ["k"] "d" (by simp)⟩

end DYS
